import Mathlib

/-!
# GridEffect (src/grid-effect.js): a shallow embedding

The class `GridEffect` draws a lattice of points on a full-viewport canvas and
highlights the points the pointer has passed over.  The embedding keeps the
instance fields that the methods read and write in a record `GridEffect`, and
turns every method into a function on that record.  What the constructor and
`destroy` do to the page (the global handle, the listeners on `window`, the
pending frame requests and the elements of the document) is kept in a second
record, `Page`.

Conventions for JavaScript numbers:

* canvas sizes, point coordinates, pointer coordinates, header heights and
  `Date.now()` timestamps are integers; they are embedded as `Nat` or `Int`;
* the numeric options (`spacing`, `pointSize`, `maxRadius`, `resetInterval`)
  may be any finite number; they are embedded as rationals (every finite
  double is a rational);
* the two places where a division by zero yields `Infinity` or `NaN`
  (`createPoints`) are handled by an explicit case split.
-/

/-! ## Data model -/

/-- An entry of `this.points`: the object literal `{ x, y, id }` pushed by
`createPoints` (lines 170-174). -/
structure Point where
  x : Int
  y : Int
  id : String
deriving DecidableEq, Repr

/-- The objects `this.mouse` and `this.prevMouse` (lines 15-16). -/
structure Mouse where
  x : Int
  y : Int
deriving DecidableEq, Repr

/-- The `options` argument of the constructor; an absent entry is `none`. -/
structure Options where
  pointSize : Option ℚ
  spacing : Option ℚ
  pointColor : Option String
  hoverColor : Option String
  maxRadius : Option ℚ
  resetInterval : Option ℚ
deriving DecidableEq, Repr

/-- What the methods read from `window` and `document`: the viewport size, and
the `offsetHeight` of the element `.top-nav` (`none` when `querySelector`
finds no such element). -/
structure Window where
  innerWidth : Nat
  innerHeight : Nat
  topNav : Option Nat
deriving DecidableEq, Repr

/-- One circle filled by `animate` (lines 243-259): the centre and radius
passed to `ctx.arc`, and the value assigned to `ctx.fillStyle` (`none` is
`undefined`). -/
structure Fill where
  cx : ℚ
  cy : ℚ
  radius : ℚ
  fillStyle : Option String
deriving DecidableEq, Repr

/-- The instance fields of the class `GridEffect` (constructor, lines 12-46).
`canvasWidth` and `canvasHeight` are `this.canvas.width` and
`this.canvas.height`; `activatedPoints` is a JavaScript `Set`, kept as the list
of its elements in insertion order. -/
structure GridEffect where
  canvasWidth : Nat
  canvasHeight : Nat
  points : List Point
  mouse : Mouse
  prevMouse : Mouse
  radius : ℚ
  spacing : ℚ
  pointColor : String
  hoverColor : String
  isInteractive : Bool
  activatedPoints : List String
  navHeight : Int
  maxRadius : ℚ
  currentColorIndex : Nat
  colorChangeInterval : Int
  lastColorChangeTime : Int
  resetInterval : ℚ
  lastResetTime : Int
  animationId : Option Nat
deriving DecidableEq, Repr

namespace GridEffect

/-- The template literal of line 165: the decimal rendering of `x`, a dash, the
decimal rendering of `y`.  JavaScript renders an integer below `10 ^ 21` in
plain decimal digits, with a leading minus sign when it is negative. -/
def pointId (x y : Int) : String :=
  toString x ++ "-" ++ toString y

/-- `Math.round`: the nearest integer, ties towards plus infinity. -/
def mathRound (v : ℚ) : Int :=
  ⌊v + 1 / 2⌋

/-- `Math.ceil(n / spacing)` for a non-zero integer `spacing` (lines 151-152). -/
def mathCeilDiv (n : Nat) (spacing : Int) : Int :=
  ⌈(n : ℚ) / (spacing : ℚ)⌉

/-- The two locals that the loops of `createPoints` update: `this.points` and the
set `pointMap` (a JavaScript `Set` keeps its elements in insertion order). -/
structure Gen where
  points : List Point
  pointMap : List String
deriving DecidableEq, Repr

/-- The body of the inner loop of `createPoints` (lines 159-176) for row `i` and
column `j`. -/
def cellStep (spacing navHeight : Int) (i j : Nat) (g : Gen) : Gen :=
  let x := (j : Int) * spacing
  let y := (i : Int) * spacing
  if y ≥ navHeight then
    let pid := pointId x y
    if pid ∈ g.pointMap then g
    else { points := g.points ++ [{ x := x, y := y, id := pid }],
           pointMap := g.pointMap ++ [pid] }
  else g

/-- The inner loop `for (let j = 0; j < cols; j++)` (line 158). -/
def colLoop (spacing navHeight : Int) (cols i : Nat) (g : Gen) : Gen :=
  (List.range cols).foldl (fun acc j => cellStep spacing navHeight i j acc) g

/-- The outer loop `for (let i = 0; i < rows; i++)` (line 157). -/
def rowLoop (spacing navHeight : Int) (rows cols : Nat) (g : Gen) : Gen :=
  (List.range rows).foldl (fun acc i => colLoop spacing navHeight cols i acc) g

/-- The method `createPoints` (lines 144-179) as a function of the fields it
reads: `canvas.width`, `canvas.height`, `this.spacing` and `this.navHeight`.
The result is the new value of `this.points`, or `none` when the loops never
terminate.

When `Math.round(this.spacing)` is zero the two divisions are by zero.  For a
field `this.spacing` in `[0, 0.5)` the rounded value is `+0`: a positive height
gives `rows = Infinity` and the outer loop never ends, and a zero height gives
`rows = NaN` and no iteration.  For a field in `[-0.5, 0)` the rounded value is
`-0`: `rows` is `-Infinity` or `NaN` and there is no iteration. -/
def createPoints (canvasWidth canvasHeight : Nat) (spacingField : ℚ)
    (navHeight : Int) : Option (List Point) :=
  let spacing := mathRound spacingField
  if spacing = 0 then
    if 0 < canvasHeight ∧ 0 ≤ spacingField then none else some []
  else
    let rows := mathCeilDiv canvasHeight spacing
    let cols := mathCeilDiv canvasWidth spacing
    some (rowLoop spacing navHeight rows.toNat cols.toNat
      { points := [], pointMap := [] }).points


/-! ## Methods -/

/-- `Set.prototype.add`: the value is appended unless it is present. -/
def setAdd (set : List String) (v : String) : List String :=
  if v ∈ set then set else set ++ [v]

/-- `options.field || fallback` for a numeric option: `undefined` and `0` are
falsy. -/
def orNumber (o : Option ℚ) (fallback : ℚ) : ℚ :=
  match o with
  | some v => if v = 0 then fallback else v
  | none => fallback

/-- `options.field || fallback` for a string option: `undefined` and the empty
string are falsy. -/
def orString (o : Option String) (fallback : String) : String :=
  match o with
  | some v => if v = "" then fallback else v
  | none => fallback

/-- The array `this.neonColors` (lines 27-34); it is assigned once and never
changed. -/
def neonColors : List String :=
  ["#FF36FF", "#00FFFF", "#39FF14", "#FE0000", "#FF9933", "#FFFF33"]

/-- What `canvas.width` or `canvas.height` reads after `value` has been assigned
to it (lines 138-139, read at lines 151-152).  The attribute has the IDL type
`unsigned long`: the assigned number is taken modulo `2 ^ 32`, and a value
above `2 ^ 31 - 1` is replaced by the attribute's default, 300 for the width
and 150 for the height. -/
def canvasDimension (value fallback : Nat) : Nat :=
  let n := value % 2 ^ 32
  if n ≤ 2147483647 then n else fallback

/-- The method `resize` (lines 136-142).  `Math.floor` is the identity on the
integers `window.innerWidth` and `window.innerHeight`; `createPoints` reads
the canvas size back. -/
def resize (s : GridEffect) (w : Window) : Option GridEffect :=
  let canvasWidth := canvasDimension w.innerWidth 300
  let canvasHeight := canvasDimension w.innerHeight 150
  match createPoints canvasWidth canvasHeight s.spacing s.navHeight with
  | none => none
  | some pts =>
    some { s with canvasWidth := canvasWidth, canvasHeight := canvasHeight,
                  points := pts, activatedPoints := [] }

/-- The lines that re-measure the header (lines 78-81 and 97-100):
`this.navHeight` is overwritten only when the element exists. -/
def measureNav (s : GridEffect) (w : Window) : GridEffect :=
  match w.topNav with
  | some h => { s with navHeight := (h : Int) }
  | none => s

/-- The handler `onResize` (lines 95-102). -/
def onResize (s : GridEffect) (w : Window) : Option GridEffect :=
  resize (measureNav s w) w

/-- The test of line 191 on integer operands: `Math.sqrt(dx*dx + dy*dy) < 30`.
The square root is taken as the integer square root (the floor of the real
one), which is below the integer 30 exactly when the real one is. -/
def inBrush (dx dy : Int) : Bool :=
  decide (Nat.sqrt (dx * dx + dy * dy).toNat < 30)

/-- The method `activatePointsInBrushArea` (lines 181-195). -/
def activatePointsInBrushArea (s : GridEffect) : GridEffect :=
  if s.mouse.y < s.navHeight then s
  else
    let activated :=
      s.points.foldl
        (fun acc point =>
          if inBrush (point.x - s.mouse.x) (point.y - s.mouse.y)
          then setAdd acc point.id else acc)
        s.activatedPoints
    { s with activatedPoints := activated }

/-- The handler `onMouseMove` (lines 104-113) for an event with the given
`clientX` and `clientY`. -/
def onMouseMove (s : GridEffect) (clientX clientY : Int) : GridEffect :=
  let s1 := { s with prevMouse := { x := s.mouse.x, y := s.mouse.y },
                     mouse := { x := clientX, y := clientY } }
  if s1.isInteractive then activatePointsInBrushArea s1 else s1

/-- The method `destroy` (lines 116-134), on the instance fields.  The calls
that act on the page (cancelling the frame request, removing the listeners and
the canvas) do not assign any field. -/
def destroy (s : GridEffect) : GridEffect :=
  { s with points := [], activatedPoints := [] }

/-- The method `checkResetPoints` (lines 197-206); `now` is the value of
`Date.now()`. -/
def checkResetPoints (s : GridEffect) (now : Int) : GridEffect :=
  if s.resetInterval ≤ 0 then s
  else if ((now - s.lastResetTime : Int) : ℚ) > s.resetInterval then
    { s with activatedPoints := [], lastResetTime := now }
  else s

/-- The method `getCurrentColor` (lines 208-217); `now` is the value of
`Date.now()`.  The second component is the returned array entry (`none` is
`undefined`). -/
def getCurrentColor (s : GridEffect) (now : Int) : GridEffect × Option String :=
  let s1 :=
    if now - s.lastColorChangeTime > s.colorChangeInterval then
      { s with currentColorIndex := (s.currentColorIndex + 1) % neonColors.length,
               lastColorChangeTime := now }
    else s
  (s1, neonColors.get? s1.currentColorIndex)

/-- One iteration of the drawing loop of `animate` (lines 243-259): the circle
filled for `point`.  `ctx.arc` (line 250) throws an `IndexSizeError` when the
radius is negative; the result is then `none`, and nothing has been filled for
the point. -/
def drawPoint (s : GridEffect) (currentColor : Option String) (point : Point) :
    Option Fill :=
  if s.radius < 0 then none
  else
    some { cx := (mathRound (point.x : ℚ) : ℚ) + 1 / 2,
           cy := (mathRound (point.y : ℚ) : ℚ) + 1 / 2,
           radius := s.radius,
           fillStyle := if point.id ∈ s.activatedPoints then currentColor
                        else some s.pointColor }

/-- The loop `for (const point of this.points)` (line 242): the circles filled,
in drawing order, or `none` when an iteration throws.  The radius is the same
in every iteration, so a loop that throws does so at its first point, before
any circle is filled. -/
def drawPoints (s : GridEffect) (currentColor : Option String) :
    List Point → Option (List Fill)
  | [] => some []
  | point :: rest =>
    match drawPoint s currentColor point with
    | none => none
    | some fill =>
      match drawPoints s currentColor rest with
      | none => none
      | some fills => some (fill :: fills)

/-- The method `animate` (lines 228-261), drawing on a 2d context.  `nowReset`
and `nowColor` are the values of the two calls of `Date.now()`.  The first
component is the fields when the call ends; the second is the circles filled,
in drawing order, or `none` when the call ends by the exception of `ctx.arc`.
The reset check and the colour cycle have run before the loop starts, so their
effect on the fields is there in both cases. -/
def animate (s : GridEffect) (nowReset nowColor : Int) :
    GridEffect × Option (List Fill) :=
  let s1 := if s.isInteractive then checkResetPoints s nowReset else s
  let (s2, currentColor) := getCurrentColor s1 nowColor
  (s2, drawPoints s2 currentColor s2.points)

/-- The closure `animate` of `startAnimation` (lines 220-223): one frame, after
which `requestAnimationFrame` returns `handle`.  When `this.animate()` throws,
the closure ends there: no frame is requested and `animationId` keeps its
value. -/
def tick (s : GridEffect) (nowReset nowColor : Int) (handle : Nat) : GridEffect :=
  match (animate s nowReset nowColor).2 with
  | some _ => { (animate s nowReset nowColor).1 with animationId := some handle }
  | none => (animate s nowReset nowColor).1

/-- The method `setInteractive` (lines 263-268). -/
def setInteractive (s : GridEffect) (interactive : Bool) : GridEffect :=
  let s1 := { s with isInteractive := interactive }
  if !interactive then { s1 with activatedPoints := [] } else s1

/-- The field assignments of the constructor (lines 12-46); `nowColor` and
`nowReset` are the values of its two calls of `Date.now()`.  A canvas created
by `document.createElement` is 300 by 150. -/
def fields (options : Options) (nowColor nowReset : Int) : GridEffect :=
  { canvasWidth := 300
    canvasHeight := 150
    points := []
    mouse := { x := 0, y := 0 }
    prevMouse := { x := 0, y := 0 }
    radius := orNumber options.pointSize 1
    spacing := orNumber options.spacing 10
    pointColor := orString options.pointColor "rgba(0, 0, 0, 0.05)"
    hoverColor := orString options.hoverColor "rgba(255, 255, 255, 0.7)"
    isInteractive := true
    activatedPoints := []
    navHeight := 0
    maxRadius := orNumber options.maxRadius 25
    currentColorIndex := 0
    colorChangeInterval := 20000
    lastColorChangeTime := nowColor
    resetInterval := orNumber options.resetInterval 0
    lastResetTime := nowReset
    animationId := none }

/-- The method `init` (lines 51-92) on the instance fields: the header is
measured, `resize` runs, and `startAnimation` draws the first frame.  The
result is `none` when `createPoints` never returns.  When the first frame
throws, `init` ends by that exception; the result is then the fields of the
object as the exception leaves them. -/
def init (s : GridEffect) (w : Window) (frameReset frameColor : Int)
    (handle : Nat) : Option GridEffect :=
  match resize (measureNav s w) w with
  | none => none
  | some s1 => some (tick s1 frameReset frameColor handle)

/-- The constructor (lines 2-49) on the instance fields.  When the first frame
throws, the constructor ends by that exception after line 10 has stored the
object in `window.existingGridEffect` and lines 87-88 have registered its
listeners; the result is the fields of that object. -/
def construct (options : Options) (w : Window) (nowColor nowReset : Int)
    (frameReset frameColor : Int) (handle : Nat) : Option GridEffect :=
  init (fields options nowColor nowReset) w frameReset frameColor handle

/-! ## Runs -/

/-- The operations that can be applied to a live instance. -/
inductive Event where
  | resize (w : Window)
  | mouseMove (clientX clientY : Int)
  | frame (nowReset nowColor : Int) (handle : Nat)
  | setInteractive (interactive : Bool)
  | destroy
deriving DecidableEq, Repr

/-- The fields after one operation; `none` when the operation never ends.  A
frame that throws ends, and leaves the fields as `tick` gives them. -/
def step (s : GridEffect) : Event → Option GridEffect
  | .resize w => onResize s w
  | .mouseMove x y => some (onMouseMove s x y)
  | .frame r c h => some (tick s r c h)
  | .setInteractive b => some (setInteractive s b)
  | .destroy => some (destroy s)

/-- A sequence of operations, applied from left to right. -/
def run (s : GridEffect) : List Event → Option GridEffect
  | [] => some s
  | e :: es =>
    match step s e with
    | none => none
    | some s1 => run s1 es

/-- The states an instance can be in: the result of the constructor, followed
by any operations that return. -/
inductive Reachable : GridEffect → Prop where
  | construct (options : Options) (w : Window) (nowColor nowReset : Int)
      (frameReset frameColor : Int) (handle : Nat) (s : GridEffect) :
      construct options w nowColor nowReset frameReset frameColor handle = some s →
      Reachable s
  | step (s s1 : GridEffect) (e : Event) :
      Reachable s → step s e = some s1 → Reachable s1

/-! ## The page

The constructor and `destroy` also act on the page: the global
`window.existingGridEffect`, the listeners registered on `window`, the callbacks
handed to `requestAnimationFrame`, and the elements of the document.  Objects
and elements are identified by numbers; an object is identified by its
position in the list of the objects created so far. -/

/-- The bound functions `this.resizeHandler` and `this.mouseMoveHandler` (lines
44-45) of the object `owner`.  The first is registered for `resize` only and
the second for `mousemove` only (lines 87-88). -/
inductive Handler where
  | resizeHandler (owner : Nat)
  | mouseMoveHandler (owner : Nat)
deriving DecidableEq, Repr

/-- The object whose bound function a handler is. -/
def Handler.owner : Handler → Nat
  | .resizeHandler o => o
  | .mouseMoveHandler o => o

/-- A callback handed to `requestAnimationFrame` that has neither run nor been
cancelled: the handle that was returned, and the object whose closure `animate`
(line 220) it is. -/
structure FrameRequest where
  handle : Nat
  owner : Nat
deriving DecidableEq, Repr

/-- An element of the document: its identity and its `id` attribute. -/
structure Element where
  ref : Nat
  id : String
deriving DecidableEq, Repr

/-- A `GridEffect` object: the element `this.canvas` and the other fields. -/
structure Instance where
  canvas : Nat
  fields : GridEffect
deriving DecidableEq, Repr

/-- The page.  `document` lists the elements in the document, the first child
of `body` first; `lastHandle` is the last handle that `requestAnimationFrame`
returned. -/
structure Page where
  existingGridEffect : Option Nat
  listeners : List Handler
  frames : List FrameRequest
  lastHandle : Nat
  document : List Element
  objects : List Instance
deriving DecidableEq, Repr

/-- `cancelAnimationFrame(handle)`; handles are unique. -/
def Page.cancelAnimationFrame (pg : Page) (handle : Nat) : Page :=
  { pg with frames := pg.frames.filter (fun f => decide (f.handle ≠ handle)) }

/-- `requestAnimationFrame(animate)` for the closure of `owner`: the new page
and the handle returned, which is never 0. -/
def Page.requestAnimationFrame (pg : Page) (owner : Nat) : Page × Nat :=
  ({ pg with frames := pg.frames ++ [{ handle := pg.lastHandle + 1, owner := owner }],
             lastHandle := pg.lastHandle + 1 },
   pg.lastHandle + 1)

/-- `window.removeEventListener(type, callback)`; a callback is registered at
most once for a type. -/
def Page.removeEventListener (pg : Page) (callback : Handler) : Page :=
  { pg with listeners := pg.listeners.filter (fun l => decide (l ≠ callback)) }

/-- `window.addEventListener(type, callback)`: no effect when the callback is
registered already. -/
def Page.addEventListener (pg : Page) (callback : Handler) : Page :=
  if callback ∈ pg.listeners then pg
  else { pg with listeners := pg.listeners ++ [callback] }

/-- `node.remove()` and `node.parentNode.removeChild(node)`; a node occurs once
in the document. -/
def Page.removeNode (pg : Page) (ref : Nat) : Page :=
  { pg with document := pg.document.filter (fun e => decide (e.ref ≠ ref)) }

/-- The method `destroy` (lines 116-134) of the object `self`, on the page. -/
def Page.destroy (pg : Page) (self : Nat) : Page :=
  match pg.objects.get? self with
  | none => pg
  | some inst =>
    let pg1 :=
      match inst.fields.animationId with
      | some handle => if handle ≠ 0 then pg.cancelAnimationFrame handle else pg
      | none => pg
    let pg2 := (pg1.removeEventListener (.resizeHandler self)).removeEventListener
      (.mouseMoveHandler self)
    let pg3 :=
      if inst.canvas ∈ pg2.document.map Element.ref then pg2.removeNode inst.canvas
      else pg2
    { pg3 with objects := pg3.objects.set self { inst with fields := inst.fields.destroy } }

/-- The first statement of the constructor (lines 4-7): the object that
`window.existingGridEffect` refers to, if any, is destroyed. -/
def Page.destroyExisting (pg : Page) : Page :=
  match pg.existingGridEffect with
  | some old => pg.destroy old
  | none => pg

/-- The constructor (lines 2-49) with `init` (lines 51-92), on the page.
`canvas` is the element `options.canvas || document.createElement('canvas')`.
The result is `none` when `createPoints` never returns.  When the first frame
throws, `startAnimation` ends before `requestAnimationFrame` and the
constructor ends by that exception; the result is then the page that is left
behind, on which the new object is stored in `window.existingGridEffect` and
has its listeners registered, but has no pending frame request. -/
def Page.construct (pg : Page) (canvas : Nat) (options : Options) (w : Window)
    (nowColor nowReset frameReset frameColor : Int) : Option Page :=
  let pg1 := pg.destroyExisting
  let self := pg1.objects.length
  let pg2 := { pg1 with existingGridEffect := some self }
  let pg3 :=
    match pg2.document.find? (fun e => decide (e.id = "grid-canvas")) with
    | some e => pg2.removeNode e.ref
    | none => pg2
  let placed : List Element :=
    { ref := canvas, id := "grid-canvas" } :: (pg3.removeNode canvas).document
  let pg4 := { pg3 with document := placed }
  match GridEffect.resize (measureNav (fields options nowColor nowReset) w) w with
  | none => none
  | some s1 =>
    let pg5 := (pg4.addEventListener (.resizeHandler self)).addEventListener
      (.mouseMoveHandler self)
    let next := pg5.lastHandle + 1
    let inst : Instance :=
      { canvas := canvas, fields := tick s1 frameReset frameColor next }
    match (animate s1 frameReset frameColor).2 with
    | none => some { pg5 with objects := pg5.objects ++ [inst] }
    | some _ =>
      let (pg6, _) := pg5.requestAnimationFrame self
      some { pg6 with objects := pg6.objects ++ [inst] }

/-- The browser runs the pending callback with the given handle: the closure of
`startAnimation` (lines 220-223).  A request leaves the list when its callback
runs; a callback that throws requests no further frame. -/
def Page.runFrame (pg : Page) (handle : Nat) (nowReset nowColor : Int) : Page :=
  match pg.frames.find? (fun f => decide (f.handle = handle)) with
  | none => pg
  | some f =>
    let pg1 := pg.cancelAnimationFrame handle
    match pg1.objects.get? f.owner with
    | none => pg1
    | some inst =>
      let next := pg1.lastHandle + 1
      let inst1 : Instance := { inst with fields := tick inst.fields nowReset nowColor next }
      match (animate inst.fields nowReset nowColor).2 with
      | none => { pg1 with objects := pg1.objects.set f.owner inst1 }
      | some _ =>
        let (pg2, _) := pg1.requestAnimationFrame f.owner
        { pg2 with objects := pg2.objects.set f.owner inst1 }

/-- A `resize` event on `window`: the registered `resizeHandler`s run in order. -/
def Page.dispatchResize (w : Window) : List Handler → List Instance → Option (List Instance)
  | [], objs => some objs
  | .resizeHandler o :: ls, objs =>
    match objs.get? o with
    | none => Page.dispatchResize w ls objs
    | some inst =>
      match inst.fields.onResize w with
      | none => none
      | some s1 => Page.dispatchResize w ls (objs.set o { inst with fields := s1 })
  | .mouseMoveHandler _ :: ls, objs => Page.dispatchResize w ls objs

/-- A `mousemove` event on `window`: the registered `mouseMoveHandler`s run in
order. -/
def Page.dispatchMouseMove (clientX clientY : Int) : List Handler → List Instance → List Instance
  | [], objs => objs
  | .mouseMoveHandler o :: ls, objs =>
    match objs.get? o with
    | none => Page.dispatchMouseMove clientX clientY ls objs
    | some inst =>
      Page.dispatchMouseMove clientX clientY ls
        (objs.set o { inst with fields := inst.fields.onMouseMove clientX clientY })
  | .resizeHandler _ :: ls, objs => Page.dispatchMouseMove clientX clientY ls objs

/-- What can happen on the page. -/
inductive PageEvent where
  | construct (canvas : Nat) (options : Options) (w : Window)
      (nowColor nowReset frameReset frameColor : Int)
  | frame (handle : Nat) (nowReset nowColor : Int)
  | resize (w : Window)
  | mouseMove (clientX clientY : Int)
  | setInteractive (self : Nat) (interactive : Bool)
  | destroy (self : Nat)
deriving DecidableEq, Repr

/-- The page after one event; `none` when the event never ends. -/
def Page.step (pg : Page) : PageEvent → Option Page
  | .construct canvas options w nowColor nowReset frameReset frameColor =>
    pg.construct canvas options w nowColor nowReset frameReset frameColor
  | .frame handle nowReset nowColor => some (pg.runFrame handle nowReset nowColor)
  | .resize w =>
    match Page.dispatchResize w pg.listeners pg.objects with
    | none => none
    | some objs => some { pg with objects := objs }
  | .mouseMove x y =>
    some { pg with objects := Page.dispatchMouseMove x y pg.listeners pg.objects }
  | .setInteractive self b =>
    match pg.objects.get? self with
    | none => some pg
    | some inst =>
      let inst1 : Instance := { inst with fields := inst.fields.setInteractive b }
      some { pg with objects := pg.objects.set self inst1 }
  | .destroy self => some (pg.destroy self)

/-- A page on which no `GridEffect` has been constructed and no element has the
id `grid-canvas`. -/
def Page.blank (document : List Element) (lastHandle : Nat) : Page :=
  { existingGridEffect := none, listeners := [], frames := [],
    lastHandle := lastHandle, document := document, objects := [] }

/-- The pages that can arise: a blank page, followed by any events that
return. -/
inductive PageReachable : Page → Prop where
  | blank (document : List Element) (lastHandle : Nat) :
      (∀ e ∈ document, e.id ≠ "grid-canvas") →
      PageReachable (Page.blank document lastHandle)
  | step (pg pg1 : Page) (e : PageEvent) :
      PageReachable pg → pg.step e = some pg1 → PageReachable pg1

/-- What holds of every page that can arise: the global handle refers to an
object; every pending frame request, every listener and every element with the
id `grid-canvas` belongs to that object, and a pending request carries the
non-zero handle stored in its owner's `animationId`. -/
structure PageInv (pg : Page) : Prop where
  handle_lt : ∀ r, pg.existingGridEffect = some r → r < pg.objects.length
  frames_live : ∀ f ∈ pg.frames, pg.existingGridEffect = some f.owner ∧ f.handle ≠ 0 ∧
    ∃ inst, pg.objects.get? f.owner = some inst ∧ inst.fields.animationId = some f.handle
  listeners_live : ∀ l ∈ pg.listeners, pg.existingGridEffect = some l.owner
  canvas_live : ∀ e ∈ pg.document, e.id = "grid-canvas" →
    ∃ r inst, pg.existingGridEffect = some r ∧ pg.objects.get? r = some inst ∧
      inst.canvas = e.ref

/-- Two lists of objects with the same canvases and the same `animationId`s. -/
def SameIdentity (objs objs1 : List Instance) : Prop :=
  objs1.length = objs.length ∧
  ∀ r inst, objs.get? r = some inst →
    ∃ inst1, objs1.get? r = some inst1 ∧ inst1.canvas = inst.canvas ∧
      inst1.fields.animationId = inst.fields.animationId

/-! ## Auxiliary definitions used in the statements and proofs -/

/-- The value of a decimal digit character. -/
def digitValue (c : Char) : Nat := c.toNat - 48

/-- Reads a decimal numeral back, most significant digit first. -/
def readDecimal (cs : List Char) : Nat :=
  cs.foldl (fun acc c => 10 * acc + digitValue c) 0

/-- The point at row `c.1` and column `c.2` of the lattice. -/
def latticePoint (spacing : Int) (c : Nat × Nat) : Point :=
  { x := (c.2 : Int) * spacing, y := (c.1 : Int) * spacing,
    id := pointId ((c.2 : Int) * spacing) ((c.1 : Int) * spacing) }

/-- The lattice as the specification words it: for each grid cell `(i, j)` of
`rows` rows and `cols` columns, in row-major order, the candidate point
`(j * spacing, i * spacing)`, kept when its `y` is at least the margin. -/
def lattice (rows cols : Nat) (spacing navHeight : Int) : List Point :=
  ((List.range rows ×ˢ List.range cols).filter
    (fun c => decide (navHeight ≤ (c.1 : Int) * spacing))).map (latticePoint spacing)

/-- The quotient `n / d` rounded up, on natural numbers. -/
def ceilDiv (n d : Nat) : Nat := (n + d - 1) / d

/-- The squared Euclidean distance between a point and the pointer. -/
def distSq (p : Point) (mx my : Int) : Int :=
  (p.x - mx) ^ 2 + (p.y - my) ^ 2

/-- Pointer-move events. -/
def Event.isMouseMove : Event → Bool
  | .mouseMove _ _ => true
  | _ => false

/-- Pointer-move events and animation frames. -/
def Event.isMoveOrFrame : Event → Bool
  | .mouseMove _ _ => true
  | .frame _ _ _ => true
  | _ => false

/-- Every operation except `setInteractive(true)`. -/
def Event.staysOff : Event → Bool
  | .setInteractive true => false
  | _ => true

/-- The fields after `getCurrentColor` has been called at each of the given
timestamps, in order. -/
def colorRun (s : GridEffect) : List Int → GridEffect
  | [] => s
  | t :: ts => colorRun (getCurrentColor s t).1 ts

/-- The number of those calls of `getCurrentColor` that found more than the
interval elapsed since the last change. -/
def advances (s : GridEffect) : List Int → Nat
  | [] => 0
  | t :: ts =>
    (if t - s.lastColorChangeTime > s.colorChangeInterval then 1 else 0) +
      advances (getCurrentColor s t).1 ts

/-- The condition under which `createPoints` never returns: the rounded spacing
is `+0` and the canvas height is positive. -/
def loopsForever (spacingField : ℚ) (canvasHeight : Nat) : Prop :=
  mathRound spacingField = 0 ∧ 0 < canvasHeight ∧ 0 ≤ spacingField

instance (spacingField : ℚ) (canvasHeight : Nat) :
    Decidable (loopsForever spacingField canvasHeight) := by
  unfold loopsForever
  infer_instance

/-- The options of the call at lines 280-287. -/
def shippedOptions : Options :=
  { pointSize := some 1, spacing := some 15,
    pointColor := some "rgba(0, 0, 0, 0.05)",
    hoverColor := some "rgba(255, 255, 255, 0.7)",
    maxRadius := some 25, resetInterval := some 0 }

/-- A page with a 100 by 100 viewport and a header 30 high. -/
def demoWindow : Window :=
  { innerWidth := 100, innerHeight := 100, topNav := some 30 }

/-- The instance that the shipped call builds on `demoWindow` when the clock
reads 0 during construction and 16 at the first frame. -/
def demoState : GridEffect :=
  tick { measureNav (fields shippedOptions 0 0) demoWindow with
         canvasWidth := 100, canvasHeight := 100,
         points := lattice 7 7 15 30, activatedPoints := [] } 16 16 1

/-- The instance `demoState` after the pointer has moved to `(45, 60)`. -/
def demoActive : GridEffect :=
  onMouseMove demoState 45 60

/-- Every activated id is the id of a point of the current field. -/
def ActivatedValid (s : GridEffect) : Prop :=
  ∀ id ∈ s.activatedPoints, ∃ p ∈ s.points, p.id = id

/-- No point of the current field lies above the measured header height. -/
def BelowMargin (s : GridEffect) : Prop :=
  ∀ p ∈ s.points, s.navHeight ≤ p.y

instance (s : GridEffect) : Decidable (ActivatedValid s) := by
  unfold ActivatedValid
  infer_instance

instance (s : GridEffect) : Decidable (BelowMargin s) := by
  unfold BelowMargin
  infer_instance

/-- The order of a row-major scan, top to bottom and left to right within a row:
`p` comes strictly before `q`. -/
def rowMajorLt (p q : Point) : Prop :=
  p.y < q.y ∨ (p.y = q.y ∧ p.x < q.x)

instance (p q : Point) : Decidable (rowMajorLt p q) := by
  unfold rowMajorLt
  infer_instance

/-- The instance `demoActive` after `setInteractive(false)`. -/
def demoOff : GridEffect :=
  setInteractive demoActive false

/-- A page with a body of two unrelated elements, before any construction. -/
def demoBlank : Page :=
  Page.blank [{ ref := 7, id := "app" }, { ref := 8, id := "footer" }] 0

/-- The page after the shipped call on `demoBlank` with a new canvas, numbered 1,
in the viewport `demoWindow`. -/
def demoPage : Page :=
  { existingGridEffect := some 0,
    listeners := [.resizeHandler 0, .mouseMoveHandler 0],
    frames := [{ handle := 1, owner := 0 }],
    lastHandle := 1,
    document := [{ ref := 1, id := "grid-canvas" }, { ref := 7, id := "app" },
      { ref := 8, id := "footer" }],
    objects := [{ canvas := 1, fields := demoState }] }

/-- The pending requests after the guarded `cancelAnimationFrame` of `destroy`
(lines 118-120): a handle is truthy when it is not 0. -/
def framesAfterCancel (animationId : Option Nat) (frames : List FrameRequest) :
    List FrameRequest :=
  match animationId with
  | some handle =>
    if handle ≠ 0 then frames.filter (fun f => decide (f.handle ≠ handle)) else frames
  | none => frames

/-- The shipped options with a negative `pointSize`, which line 17 keeps. -/
def negativeOptions : Options :=
  { shippedOptions with pointSize := some (-1) }

/-- The fields of the object that the constructor leaves behind on `demoWindow`
for `negativeOptions`, when the clock reads 0 during construction and 16 at
the first frame. -/
def demoThrown : GridEffect :=
  tick { measureNav (fields negativeOptions 0 0) demoWindow with
         canvasWidth := 100, canvasHeight := 100,
         points := lattice 7 7 15 30, activatedPoints := [] } 16 16 1

/-! ## Decimal numerals and point ids -/

theorem toDigitsCore_append (fuel : Nat) : ∀ (n : Nat) (ds : List Char),
    Nat.toDigitsCore 10 fuel n ds = Nat.toDigitsCore 10 fuel n [] ++ ds := by
  induction fuel with
  | zero => intro n ds; simp [Nat.toDigitsCore]
  | succ f ih =>
    intro n ds
    simp only [Nat.toDigitsCore]
    split
    · simp
    · rw [ih (n / 10) (Nat.digitChar (n % 10) :: ds), ih (n / 10) [Nat.digitChar (n % 10)]]
      simp

theorem digitValue_digitChar (d : Nat) (h : d < 10) : digitValue (Nat.digitChar d) = d := by
  interval_cases d <;> rfl

theorem digitChar_ne_dash (d : Nat) (h : d < 10) : Nat.digitChar d ≠ '-' := by
  interval_cases d <;> decide

theorem readDecimal_toDigitsCore (fuel : Nat) : ∀ n : Nat, n < fuel →
    readDecimal (Nat.toDigitsCore 10 fuel n []) = n := by
  induction fuel with
  | zero => intro n h; omega
  | succ f ih =>
    intro n h
    simp only [Nat.toDigitsCore]
    split
    · rename_i h0
      have hn : n < 10 := by omega
      simp [readDecimal, Nat.mod_eq_of_lt hn, digitValue_digitChar n hn]
    · rename_i h0
      rw [toDigitsCore_append]
      have hlt : n / 10 < f := by omega
      have := ih (n / 10) hlt
      simp only [readDecimal, List.foldl_append, List.foldl_cons, List.foldl_nil] at this ⊢
      rw [this, digitValue_digitChar _ (Nat.mod_lt _ (by decide))]
      omega

theorem dash_not_mem_toDigitsCore (fuel : Nat) : ∀ (n : Nat) (ds : List Char),
    '-' ∉ ds → '-' ∉ Nat.toDigitsCore 10 fuel n ds := by
  induction fuel with
  | zero => intro n ds h; simpa [Nat.toDigitsCore] using h
  | succ f ih =>
    intro n ds h
    have hd : '-' ∉ Nat.digitChar (n % 10) :: ds := by
      simp only [List.mem_cons, not_or]
      exact ⟨fun e => digitChar_ne_dash _ (Nat.mod_lt _ (by decide)) e.symm, h⟩
    simp only [Nat.toDigitsCore]
    split
    · exact hd
    · exact ih _ _ hd

theorem toString_natCast (n : Nat) : toString ((n : Nat) : Int) = ⟨Nat.toDigits 10 n⟩ := rfl

theorem toDigits_inj (a c : Nat) (h : Nat.toDigits 10 a = Nat.toDigits 10 c) : a = c := by
  have := congrArg readDecimal h
  rwa [Nat.toDigits, Nat.toDigits, readDecimal_toDigitsCore _ _ (Nat.lt_succ_self _),
    readDecimal_toDigitsCore _ _ (Nat.lt_succ_self _)] at this

theorem pointId_natCast_inj (a b c d : Nat)
    (h : pointId (a : Int) (b : Int) = pointId (c : Int) (d : Int)) : a = c ∧ b = d := by
  have h1 := congrArg String.data h
  simp only [pointId, toString_natCast, String.data_append] at h1
  simp only [List.append_assoc, List.singleton_append] at h1
  have hc : '-' ∉ Nat.toDigits 10 c := dash_not_mem_toDigitsCore _ _ _ (by simp)
  have ha : '-' ∉ Nat.toDigits 10 a := dash_not_mem_toDigitsCore _ _ _ (by simp)
  have key : Nat.toDigits 10 a = Nat.toDigits 10 c ∧
      Nat.toDigits 10 b = Nat.toDigits 10 d := by
    rcases List.append_eq_append_iff.mp h1 with ⟨l, h2, h3⟩ | ⟨l, h2, h3⟩
    · cases l with
      | nil => simp at h2 h3; exact ⟨h2.symm, h3⟩
      | cons x l =>
        simp at h3
        exfalso; apply hc; rw [h2, h3.1]; simp
    · cases l with
      | nil => simp at h2 h3; exact ⟨h2, h3.symm⟩
      | cons x l =>
        simp at h3
        exfalso; apply ha; rw [h2, h3.1]; simp
  exact ⟨toDigits_inj _ _ key.1, toDigits_inj _ _ key.2⟩

theorem pointId_inj_of_nonneg (a b c d : Int) (ha : 0 ≤ a) (hb : 0 ≤ b) (hc : 0 ≤ c)
    (hd : 0 ≤ d) (h : pointId a b = pointId c d) : a = c ∧ b = d := by
  obtain ⟨a, rfl⟩ := Int.eq_ofNat_of_zero_le ha
  obtain ⟨b, rfl⟩ := Int.eq_ofNat_of_zero_le hb
  obtain ⟨c, rfl⟩ := Int.eq_ofNat_of_zero_le hc
  obtain ⟨d, rfl⟩ := Int.eq_ofNat_of_zero_le hd
  obtain ⟨h1, h2⟩ := pointId_natCast_inj a b c d h
  exact ⟨by rw [h1], by rw [h2]⟩

theorem latticePoint_id_injective (spacing : Int) (hS : 0 < spacing) :
    Function.Injective (fun c : Nat × Nat => (latticePoint spacing c).id) := by
  rintro ⟨i, j⟩ ⟨i2, j2⟩ h
  simp only [latticePoint] at h
  have hn : ∀ k : Nat, 0 ≤ (k : Int) * spacing := fun k =>
    mul_nonneg (Int.ofNat_nonneg k) hS.le
  obtain ⟨h1, h2⟩ := pointId_inj_of_nonneg _ _ _ _ (hn j) (hn i) (hn j2) (hn i2) h
  have e1 : (j : Int) = j2 := mul_right_cancel₀ hS.ne' h1
  have e2 : (i : Int) = i2 := mul_right_cancel₀ hS.ne' h2
  simp only [Prod.mk.injEq]
  exact ⟨by exact_mod_cast e2, by exact_mod_cast e1⟩

/-! ## The loops of `createPoints` -/

theorem foldl_product {α β γ : Type} (f : γ → α × β → γ) (l₂ : List β) :
    ∀ (l₁ : List α) (g : γ),
    (l₁ ×ˢ l₂).foldl f g =
      l₁.foldl (fun acc a => l₂.foldl (fun acc2 b => f acc2 (a, b)) acc) g := by
  intro l₁
  induction l₁ with
  | nil => intro g; simp
  | cons a l ih =>
    intro g
    rw [List.product_cons, List.foldl_append, ih, List.foldl_cons, List.foldl_map]

theorem rowLoop_eq_foldl (spacing navHeight : Int) (rows cols : Nat) (g : Gen) :
    rowLoop spacing navHeight rows cols g =
      (List.range rows ×ˢ List.range cols).foldl
        (fun acc c => cellStep spacing navHeight c.1 c.2 acc) g := by
  rw [foldl_product]
  rfl

theorem foldl_cellStep (spacing navHeight : Int) :
    ∀ (cs : List (Nat × Nat)) (g : Gen),
    (cs.map (fun c => (latticePoint spacing c).id)).Nodup →
    (∀ c ∈ cs, (latticePoint spacing c).id ∉ g.pointMap) →
    cs.foldl (fun acc c => cellStep spacing navHeight c.1 c.2 acc) g =
      { points := g.points ++
          (cs.filter (fun c => decide (navHeight ≤ (c.1 : Int) * spacing))).map
            (latticePoint spacing),
        pointMap := g.pointMap ++
          ((cs.filter (fun c => decide (navHeight ≤ (c.1 : Int) * spacing))).map
            (latticePoint spacing)).map Point.id } := by
  intro cs
  induction cs with
  | nil => intro g _ _; simp
  | cons c cs ih =>
    intro g hnd hnew
    rw [List.map_cons, List.nodup_cons] at hnd
    have hc : (latticePoint spacing c).id ∉ g.pointMap := hnew c (List.mem_cons_self _ _)
    rw [List.foldl_cons]
    by_cases hy : navHeight ≤ (c.1 : Int) * spacing
    · have hstep : cellStep spacing navHeight c.1 c.2 g =
          { points := g.points ++ [latticePoint spacing c],
            pointMap := g.pointMap ++ [(latticePoint spacing c).id] } := by
        simp only [latticePoint] at hc
        simp [cellStep, hy, hc, latticePoint]
      rw [hstep, ih _ hnd.2]
      · simp [List.filter_cons, hy]
      · intro d hd
        simp only [List.mem_append, List.mem_singleton, not_or]
        refine ⟨hnew d (List.mem_cons_of_mem _ hd), ?_⟩
        intro e
        exact hnd.1 (e ▸ List.mem_map_of_mem (fun c => (latticePoint spacing c).id) hd)
    · have hstep : cellStep spacing navHeight c.1 c.2 g = g := by
        simp [cellStep, hy]
      rw [hstep, ih _ hnd.2 (fun d hd => hnew d (List.mem_cons_of_mem _ hd))]
      simp [List.filter_cons, hy]

theorem rowLoop_eq_lattice (spacing navHeight : Int) (hS : 0 < spacing) (rows cols : Nat) :
    (rowLoop spacing navHeight rows cols { points := [], pointMap := [] }).points =
      lattice rows cols spacing navHeight := by
  rw [rowLoop_eq_foldl, foldl_cellStep]
  · simp [lattice]
  · exact ((List.nodup_range rows).product (List.nodup_range cols)).map
      (latticePoint_id_injective spacing hS)
  · intro c _; simp

theorem mathRound_intCast (z : Int) : mathRound (z : ℚ) = z := by
  unfold mathRound
  rw [Int.floor_int_add]
  have : ⌊(1 / 2 : ℚ)⌋ = 0 := by
    rw [Int.floor_eq_iff]
    constructor <;> norm_num
  omega

theorem lt_toNat_mathCeilDiv (n : Nat) (spacing : Int) (hS : 0 < spacing) (i : Nat) :
    i < (mathCeilDiv n spacing).toNat ↔ (i : Int) * spacing < n := by
  unfold mathCeilDiv
  have hq : (0 : ℚ) < (spacing : ℚ) := by exact_mod_cast hS
  rw [Int.lt_toNat, Int.lt_ceil, lt_div_iff₀ hq]
  constructor
  · intro h; exact_mod_cast h
  · intro h; exact_mod_cast h

theorem lt_ceilDiv (n d : Nat) (hd : 0 < d) (i : Nat) : i < ceilDiv n d ↔ i * d < n := by
  unfold ceilDiv
  rw [← Nat.succ_le_iff, Nat.le_div_iff_mul_le hd, Nat.succ_mul]
  omega

theorem toNat_mathCeilDiv (n : Nat) (spacing : Int) (hS : 0 < spacing) :
    (mathCeilDiv n spacing).toNat = ceilDiv n spacing.toNat := by
  have hd : 0 < spacing.toNat := by omega
  have key : ∀ i : Nat, i < (mathCeilDiv n spacing).toNat ↔ i < ceilDiv n spacing.toNat := by
    intro i
    rw [lt_toNat_mathCeilDiv n spacing hS, lt_ceilDiv n _ hd]
    have e : ((spacing.toNat : Nat) : Int) = spacing := Int.toNat_of_nonneg hS.le
    constructor
    · intro h
      have : ((i * spacing.toNat : Nat) : Int) < (n : Int) := by
        rw [Nat.cast_mul, e]; exact h
      exact_mod_cast this
    · intro h
      have : ((i * spacing.toNat : Nat) : Int) < (n : Int) := by exact_mod_cast h
      rwa [Nat.cast_mul, e] at this
  apply le_antisymm
  · by_contra hlt
    exact absurd ((key _).mp (not_le.mp hlt)) (lt_irrefl _)
  · by_contra hlt
    exact absurd ((key _).mpr (not_le.mp hlt)) (lt_irrefl _)

theorem createPoints_of_round (W H : Nat) (spacingField : ℚ) (spacing navHeight : Int)
    (hR : mathRound spacingField = spacing) (hS : 1 ≤ spacing) :
    createPoints W H spacingField navHeight =
      some (lattice (ceilDiv H spacing.toNat) (ceilDiv W spacing.toNat) spacing navHeight) := by
  have h0 : spacing ≠ 0 := by omega
  have hpos : 0 < spacing := by omega
  simp only [createPoints, hR, h0, if_false]
  rw [rowLoop_eq_lattice _ _ hpos, toNat_mathCeilDiv _ _ hpos, toNat_mathCeilDiv _ _ hpos]

theorem createPoints_of_pos (W H : Nat) (spacing navHeight : Int) (hS : 1 ≤ spacing) :
    createPoints W H (spacing : ℚ) navHeight =
      some (lattice (ceilDiv H spacing.toNat) (ceilDiv W spacing.toNat) spacing navHeight) :=
  createPoints_of_round W H _ spacing navHeight (mathRound_intCast spacing) hS

theorem mem_lattice (W H : Nat) (spacing navHeight : Int) (hS : 1 ≤ spacing) (p : Point) :
    p ∈ lattice (ceilDiv H spacing.toNat) (ceilDiv W spacing.toNat) spacing navHeight ↔
      ∃ i j : Nat, (j : Int) * spacing < W ∧ (i : Int) * spacing < H ∧
        navHeight ≤ (i : Int) * spacing ∧ p = latticePoint spacing (i, j) := by
  have hpos : 0 < spacing := by omega
  simp only [lattice, List.mem_map, List.mem_filter, List.mem_product, List.mem_range,
    decide_eq_true_eq, Prod.exists]
  rw [← toNat_mathCeilDiv H spacing hpos, ← toNat_mathCeilDiv W spacing hpos]
  simp only [lt_toNat_mathCeilDiv _ _ hpos]
  constructor
  · rintro ⟨i, j, ⟨⟨hi, hj⟩, hm⟩, rfl⟩
    exact ⟨i, j, hj, hi, hm, rfl⟩
  · rintro ⟨i, j, hj, hi, hm, rfl⟩
    exact ⟨i, j, ⟨⟨hi, hj⟩, hm⟩, rfl⟩

theorem length_lattice (W H : Nat) (spacing navHeight : Int) (hS : 1 ≤ spacing) :
    (lattice (ceilDiv H spacing.toNat) (ceilDiv W spacing.toNat) spacing navHeight).length =
      Set.ncard {c : Nat × Nat | (c.2 : Int) * spacing < W ∧ (c.1 : Int) * spacing < H ∧
        navHeight ≤ (c.1 : Int) * spacing} := by
  have hpos : 0 < spacing := by omega
  have hnd : ((List.range (ceilDiv H spacing.toNat) ×ˢ
      List.range (ceilDiv W spacing.toNat)).filter
        (fun c => decide (navHeight ≤ (c.1 : Int) * spacing))).Nodup :=
    ((List.nodup_range _).product (List.nodup_range _)).filter _
  have hset : {c : Nat × Nat | (c.2 : Int) * spacing < W ∧ (c.1 : Int) * spacing < H ∧
        navHeight ≤ (c.1 : Int) * spacing} =
      ↑((List.range (ceilDiv H spacing.toNat) ×ˢ
        List.range (ceilDiv W spacing.toNat)).filter
          (fun c => decide (navHeight ≤ (c.1 : Int) * spacing))).toFinset := by
    ext ⟨i, j⟩
    simp only [Set.mem_setOf_eq, List.coe_toFinset, List.mem_filter, List.mem_product,
      List.mem_range, decide_eq_true_eq]
    rw [← toNat_mathCeilDiv H spacing hpos, ← toNat_mathCeilDiv W spacing hpos]
    simp only [lt_toNat_mathCeilDiv _ _ hpos]
    tauto
  rw [hset, Set.ncard_coe_Finset, List.toFinset_card_of_nodup hnd]
  simp [lattice]

theorem nodup_lattice_ids (rows cols : Nat) (spacing navHeight : Int) (hS : 0 < spacing) :
    ((lattice rows cols spacing navHeight).map Point.id).Nodup := by
  unfold lattice
  rw [List.map_map]
  exact (((List.nodup_range rows).product (List.nodup_range cols)).filter _).map
    (latticePoint_id_injective spacing hS)

/-! ## Claims about `createPoints` -/

/-- C1 (lattice coverage).  For every canvas width `W`, height `H`, margin `M`
and spacing field whose rounded value `S` is an integer `≥ 1` (in particular
every integer spacing `S ≥ 1`), `createPoints` returns, and the points it
returns are exactly the `(j * S, i * S)` with `j * S < W`, `i * S < H` and
`i * S ≥ M`; their number is the number of such pairs `(i, j)`.  For
`W = H = 100` and `S = 25` the margin `0` gives the 16 points with coordinates
in `0, 25, 50, 75`, and the margin `30` gives the 8 points with `y` in
`50, 75`. -/
theorem createPoints_lattice_coverage (W H : Nat) (spacingField : ℚ) (S M : Int)
    (hR : mathRound spacingField = S) (hS : 1 ≤ S) :
    (∃ pts : List Point, createPoints W H spacingField M = some pts ∧
      (∀ p : Point, p ∈ pts ↔
        ∃ i j : Nat, (j : Int) * S < W ∧ (i : Int) * S < H ∧ M ≤ (i : Int) * S ∧
          p = { x := (j : Int) * S, y := (i : Int) * S,
                id := pointId ((j : Int) * S) ((i : Int) * S) }) ∧
      pts.length = Set.ncard {c : Nat × Nat |
        (c.2 : Int) * S < W ∧ (c.1 : Int) * S < H ∧ M ≤ (c.1 : Int) * S}) ∧
    createPoints 100 100 25 0 = some
      [⟨0, 0, "0-0"⟩, ⟨25, 0, "25-0"⟩, ⟨50, 0, "50-0"⟩, ⟨75, 0, "75-0"⟩,
       ⟨0, 25, "0-25"⟩, ⟨25, 25, "25-25"⟩, ⟨50, 25, "50-25"⟩, ⟨75, 25, "75-25"⟩,
       ⟨0, 50, "0-50"⟩, ⟨25, 50, "25-50"⟩, ⟨50, 50, "50-50"⟩, ⟨75, 50, "75-50"⟩,
       ⟨0, 75, "0-75"⟩, ⟨25, 75, "25-75"⟩, ⟨50, 75, "50-75"⟩, ⟨75, 75, "75-75"⟩] ∧
    createPoints 100 100 25 30 = some
      [⟨0, 50, "0-50"⟩, ⟨25, 50, "25-50"⟩, ⟨50, 50, "50-50"⟩, ⟨75, 50, "75-50"⟩,
       ⟨0, 75, "0-75"⟩, ⟨25, 75, "25-75"⟩, ⟨50, 75, "50-75"⟩, ⟨75, 75, "75-75"⟩] := by
  refine ⟨⟨_, createPoints_of_round W H spacingField S M hR hS, ?_,
    length_lattice W H S M hS⟩, ?_, ?_⟩
  · intro p
    rw [mem_lattice W H S M hS]
    rfl
  · have e : (25 : ℚ) = ((25 : Int) : ℚ) := by norm_num
    rw [e, createPoints_of_pos 100 100 25 0 (by decide)]
    decide
  · have e : (25 : ℚ) = ((25 : Int) : ℚ) := by norm_num
    rw [e, createPoints_of_pos 100 100 25 30 (by decide)]
    decide

/-- C1, at a concrete input: a 70 by 40 canvas with spacing 20 and margin 15. -/
theorem createPoints_lattice_coverage_witness :
    mathRound ((20 : Int) : ℚ) = 20 ∧ (1 : Int) ≤ 20 ∧
    ∃ pts : List Point, createPoints 70 40 ((20 : Int) : ℚ) 15 = some pts ∧
      (∀ p : Point, p ∈ pts ↔
        ∃ i j : Nat, (j : Int) * 20 < (70 : Nat) ∧ (i : Int) * 20 < (40 : Nat) ∧
          15 ≤ (i : Int) * 20 ∧
          p = { x := (j : Int) * 20, y := (i : Int) * 20,
                id := pointId ((j : Int) * 20) ((i : Int) * 20) }) ∧
      pts.length = Set.ncard {c : Nat × Nat |
        (c.2 : Int) * 20 < (70 : Nat) ∧ (c.1 : Int) * 20 < (40 : Nat) ∧
          15 ≤ (c.1 : Int) * 20} :=
  ⟨mathRound_intCast 20, by decide,
    (createPoints_lattice_coverage 70 40 _ 20 15 (mathRound_intCast 20) (by decide)).1⟩

/-- C2 (uniqueness).  For every `W`, `H`, margin `M` and spacing field whose
rounded value `S` is an integer `≥ 1` (in particular every integer spacing
`S ≥ 1`), `createPoints` returns a list in which no two entries have the same
`id`, and no two entries have the same coordinates. -/
theorem createPoints_ids_nodup (W H : Nat) (spacingField : ℚ) (S M : Int)
    (hR : mathRound spacingField = S) (hS : 1 ≤ S) :
    ∃ pts : List Point, createPoints W H spacingField M = some pts ∧
      (pts.map Point.id).Nodup ∧ (pts.map (fun p => (p.x, p.y))).Nodup := by
  have hid := nodup_lattice_ids (ceilDiv H S.toNat) (ceilDiv W S.toNat) S M (by omega)
  refine ⟨_, createPoints_of_round W H spacingField S M hR hS, hid, ?_⟩
  have e : (lattice (ceilDiv H S.toNat) (ceilDiv W S.toNat) S M).map Point.id =
      ((lattice (ceilDiv H S.toNat) (ceilDiv W S.toNat) S M).map
        (fun p => (p.x, p.y))).map (fun c => pointId c.1 c.2) := by
    rw [List.map_map]
    apply List.map_congr_left
    intro p hp
    obtain ⟨i, j, -, -, -, rfl⟩ := (mem_lattice W H S M hS p).mp hp
    rfl
  rw [e] at hid
  exact hid.of_map _

/-- C2, at a concrete input: a 70 by 40 canvas with spacing 20 and margin 15. -/
theorem createPoints_ids_nodup_witness :
    mathRound ((20 : Int) : ℚ) = 20 ∧ (1 : Int) ≤ 20 ∧
    ∃ pts : List Point, createPoints 70 40 ((20 : Int) : ℚ) 15 = some pts ∧
      (pts.map Point.id).Nodup ∧ (pts.map (fun p => (p.x, p.y))).Nodup :=
  ⟨mathRound_intCast 20, by decide,
    createPoints_ids_nodup 70 40 _ 20 15 (mathRound_intCast 20) (by decide)⟩

/-! ## A concrete instance -/

theorem construct_demo : construct shippedOptions demoWindow 0 0 16 16 1 = some demoState := by
  have hsp : (fields shippedOptions 0 0).spacing = ((15 : Int) : ℚ) := by
    simp [fields, shippedOptions, orNumber]
  have hcp : createPoints 100 100 ((15 : Int) : ℚ) 30 = some (lattice 7 7 15 30) := by
    rw [createPoints_of_pos 100 100 15 30 (by decide)]
    rfl
  have hr : resize (measureNav (fields shippedOptions 0 0) demoWindow) demoWindow =
      some { measureNav (fields shippedOptions 0 0) demoWindow with
             canvasWidth := 100, canvasHeight := 100,
             points := lattice 7 7 15 30, activatedPoints := [] } := by
    have e1 : (measureNav (fields shippedOptions 0 0) demoWindow).spacing =
        ((15 : Int) : ℚ) := hsp
    have e2 : (measureNav (fields shippedOptions 0 0) demoWindow).navHeight = 30 := rfl
    unfold resize
    rw [e1, e2]
    show (match createPoints 100 100 ((15 : Int) : ℚ) 30 with
      | none => none
      | some pts => _) = _
    rw [hcp]
    rfl
  unfold construct init
  rw [hr]
  rfl

/-! ## Activation -/

theorem inBrush_iff (dx dy : Int) : inBrush dx dy = true ↔ dx ^ 2 + dy ^ 2 < 900 := by
  have h0 : 0 ≤ dx * dx + dy * dy := add_nonneg (mul_self_nonneg dx) (mul_self_nonneg dy)
  simp only [inBrush, decide_eq_true_eq, Nat.sqrt_lt']
  rw [Int.toNat_lt h0, sq dx, sq dy]
  norm_num

theorem mem_setAdd (set : List String) (v id : String) :
    id ∈ setAdd set v ↔ id ∈ set ∨ id = v := by
  unfold setAdd
  split
  · constructor
    · intro h; exact Or.inl h
    · rintro (h | rfl)
      · exact h
      · assumption
  · simp

theorem mem_foldl_setAdd (c : Point → Bool) :
    ∀ (pts : List Point) (acc : List String) (id : String),
    id ∈ pts.foldl (fun acc point => if c point then setAdd acc point.id else acc) acc ↔
      id ∈ acc ∨ ∃ p ∈ pts, p.id = id ∧ c p = true := by
  intro pts
  induction pts with
  | nil => intro acc id; simp
  | cons q pts ih =>
    intro acc id
    rw [List.foldl_cons, ih]
    by_cases hq : c q = true
    · simp only [hq, if_true, mem_setAdd, List.mem_cons, exists_eq_or_imp]
      constructor
      · rintro ((h | h) | h)
        · exact Or.inl h
        · exact Or.inr (Or.inl ⟨h.symm, trivial⟩)
        · exact Or.inr (Or.inr h)
      · rintro (h | ⟨h, -⟩ | h)
        · exact Or.inl (Or.inl h)
        · exact Or.inl (Or.inr h.symm)
        · exact Or.inr h
    · simp only [hq, List.mem_cons, exists_eq_or_imp]
      simp

theorem mem_activatePointsInBrushArea (s : GridEffect) (h : s.navHeight ≤ s.mouse.y)
    (id : String) :
    id ∈ (activatePointsInBrushArea s).activatedPoints ↔
      id ∈ s.activatedPoints ∨
        ∃ p ∈ s.points, p.id = id ∧ distSq p s.mouse.x s.mouse.y < 900 := by
  have hn : ¬ s.mouse.y < s.navHeight := not_lt.mpr h
  simp only [activatePointsInBrushArea, hn, if_false]
  rw [mem_foldl_setAdd (fun point => inBrush (point.x - s.mouse.x) (point.y - s.mouse.y))]
  simp only [inBrush_iff, distSq]

theorem subset_activatePointsInBrushArea (s : GridEffect) (id : String)
    (h : id ∈ s.activatedPoints) : id ∈ (activatePointsInBrushArea s).activatedPoints := by
  unfold activatePointsInBrushArea
  split
  · exact h
  · exact (mem_foldl_setAdd _ _ _ _).mpr (Or.inl h)

theorem mem_onMouseMove (s : GridEffect) (mx my : Int)
    (hI : s.isInteractive = true) (hy : s.navHeight ≤ my) (id : String) :
    id ∈ (onMouseMove s mx my).activatedPoints ↔
      id ∈ s.activatedPoints ∨ ∃ p ∈ s.points, p.id = id ∧ distSq p mx my < 900 := by
  have h1 := mem_activatePointsInBrushArea
    { s with prevMouse := { x := s.mouse.x, y := s.mouse.y },
             mouse := { x := mx, y := my } } hy id
  simpa [onMouseMove, hI] using h1

theorem subset_onMouseMove (s : GridEffect) (mx my : Int) (id : String)
    (h : id ∈ s.activatedPoints) : id ∈ (onMouseMove s mx my).activatedPoints := by
  unfold onMouseMove
  by_cases hI : s.isInteractive = true
  · simp only [hI, if_true]
    exact subset_activatePointsInBrushArea _ id h
  · simpa [hI] using h

/-- C3 (activation rule).  With interactivity on and a pointer-move event at
`(mx, my)` with `my ≥ navHeight`, the ActivatedSet after `onMouseMove` holds
exactly the ids it held before and the ids of the points whose squared distance
to `(mx, my)` is below 900; the id of a point at distance exactly 30 is in the
set afterwards only if it was there before or belongs to another point inside
the brush. -/
theorem onMouseMove_activation (s : GridEffect) (mx my : Int)
    (hI : s.isInteractive = true) (hy : s.navHeight ≤ my) :
    (∀ id : String, id ∈ (onMouseMove s mx my).activatedPoints ↔
      id ∈ s.activatedPoints ∨ ∃ p ∈ s.points, p.id = id ∧ distSq p mx my < 900) ∧
    (∀ p ∈ s.points, distSq p mx my = 900 → p.id ∉ s.activatedPoints →
      (∀ q ∈ s.points, q.id = p.id → ¬ distSq q mx my < 900) →
      p.id ∉ (onMouseMove s mx my).activatedPoints) := by
  refine ⟨mem_onMouseMove s mx my hI hy, ?_⟩
  intro p _ _ hbefore hothers hmem
  rcases (mem_onMouseMove s mx my hI hy p.id).mp hmem with h | ⟨q, hq, hid, hd⟩
  · exact hbefore h
  · exact hothers q hq hid hd

/-- C5 (margin exclusion for the pointer).  A pointer-move event whose `y` is
below `navHeight` leaves the ActivatedSet as it was. -/
theorem onMouseMove_above_margin (s : GridEffect) (mx my : Int) (hy : my < s.navHeight) :
    (onMouseMove s mx my).activatedPoints = s.activatedPoints := by
  unfold onMouseMove
  by_cases hI : s.isInteractive = true
  · simp [hI, activatePointsInBrushArea, hy]
  · simp [hI]


/-- C3, at a concrete input: the instance `demoState` and a pointer at `(45, 60)`,
which is at distance exactly 30 from the point `(15, 60)`. -/
theorem onMouseMove_activation_witness :
    demoState.isInteractive = true ∧ demoState.navHeight ≤ 60 ∧
    (∀ id : String, id ∈ (onMouseMove demoState 45 60).activatedPoints ↔
      id ∈ demoState.activatedPoints ∨
        ∃ p ∈ demoState.points, p.id = id ∧ distSq p 45 60 < 900) ∧
    (∀ p ∈ demoState.points, distSq p 45 60 = 900 → p.id ∉ demoState.activatedPoints →
      (∀ q ∈ demoState.points, q.id = p.id → ¬ distSq q 45 60 < 900) →
      p.id ∉ (onMouseMove demoState 45 60).activatedPoints) :=
  ⟨by decide, by decide, onMouseMove_activation demoState 45 60 (by decide) (by decide)⟩

/-- C5, at a concrete input: the instance `demoState` and a pointer at `(40, 29)`,
one unit above the header's lower edge and within the brush of the point
`(45, 30)`. -/
theorem onMouseMove_above_margin_witness :
    (29 : Int) < demoState.navHeight ∧
    (onMouseMove demoState 40 29).activatedPoints = demoState.activatedPoints :=
  ⟨by decide, onMouseMove_above_margin demoState 40 29 (by decide)⟩

/-! ## Fields that the operations leave alone -/

theorem activatePointsInBrushArea_frame (s : GridEffect) :
    (activatePointsInBrushArea s).points = s.points ∧
    (activatePointsInBrushArea s).navHeight = s.navHeight ∧
    (activatePointsInBrushArea s).isInteractive = s.isInteractive ∧
    (activatePointsInBrushArea s).resetInterval = s.resetInterval := by
  unfold activatePointsInBrushArea
  split <;> exact ⟨rfl, rfl, rfl, rfl⟩

theorem onMouseMove_frame (s : GridEffect) (mx my : Int) :
    (onMouseMove s mx my).points = s.points ∧
    (onMouseMove s mx my).navHeight = s.navHeight ∧
    (onMouseMove s mx my).isInteractive = s.isInteractive ∧
    (onMouseMove s mx my).resetInterval = s.resetInterval := by
  unfold onMouseMove
  by_cases hI : s.isInteractive = true
  · simp only [hI, if_true]
    exact activatePointsInBrushArea_frame _
  · simp [hI]

theorem checkResetPoints_frame (s : GridEffect) (now : Int) :
    (checkResetPoints s now).points = s.points ∧
    (checkResetPoints s now).navHeight = s.navHeight ∧
    (checkResetPoints s now).isInteractive = s.isInteractive ∧
    (checkResetPoints s now).resetInterval = s.resetInterval := by
  unfold checkResetPoints
  split
  · exact ⟨rfl, rfl, rfl, rfl⟩
  · split <;> exact ⟨rfl, rfl, rfl, rfl⟩

theorem getCurrentColor_frame (s : GridEffect) (now : Int) :
    (getCurrentColor s now).1.points = s.points ∧
    (getCurrentColor s now).1.navHeight = s.navHeight ∧
    (getCurrentColor s now).1.isInteractive = s.isInteractive ∧
    (getCurrentColor s now).1.resetInterval = s.resetInterval ∧
    (getCurrentColor s now).1.activatedPoints = s.activatedPoints := by
  simp only [getCurrentColor]
  split <;> exact ⟨rfl, rfl, rfl, rfl, rfl⟩

theorem animate_fst (s : GridEffect) (nowReset nowColor : Int) :
    (animate s nowReset nowColor).1 =
      (getCurrentColor (if s.isInteractive then checkResetPoints s nowReset else s)
        nowColor).1 := rfl

theorem animate_frame (s : GridEffect) (nowReset nowColor : Int) :
    (animate s nowReset nowColor).1.points = s.points ∧
    (animate s nowReset nowColor).1.navHeight = s.navHeight ∧
    (animate s nowReset nowColor).1.isInteractive = s.isInteractive ∧
    (animate s nowReset nowColor).1.resetInterval = s.resetInterval := by
  rw [animate_fst]
  obtain ⟨h1, h2, h3, h4, -⟩ := getCurrentColor_frame
    (if s.isInteractive then checkResetPoints s nowReset else s) nowColor
  rw [h1, h2, h3, h4]
  split
  · exact checkResetPoints_frame s nowReset
  · exact ⟨rfl, rfl, rfl, rfl⟩

theorem animate_activatedPoints (s : GridEffect) (nowReset nowColor : Int) :
    (animate s nowReset nowColor).1.activatedPoints =
      (if s.isInteractive then checkResetPoints s nowReset else s).activatedPoints := by
  rw [animate_fst]
  exact (getCurrentColor_frame _ nowColor).2.2.2.2

theorem tick_eq (s : GridEffect) (nowReset nowColor : Int) (handle : Nat) :
    tick s nowReset nowColor handle =
      { (animate s nowReset nowColor).1 with
          animationId := (tick s nowReset nowColor handle).animationId } := by
  unfold tick
  cases (animate s nowReset nowColor).2 <;> rfl

theorem tick_frame (s : GridEffect) (nowReset nowColor : Int) (handle : Nat) :
    (tick s nowReset nowColor handle).points = s.points ∧
    (tick s nowReset nowColor handle).navHeight = s.navHeight ∧
    (tick s nowReset nowColor handle).isInteractive = s.isInteractive ∧
    (tick s nowReset nowColor handle).resetInterval = s.resetInterval ∧
    (tick s nowReset nowColor handle).activatedPoints =
      (animate s nowReset nowColor).1.activatedPoints := by
  obtain ⟨h1, h2, h3, h4⟩ := animate_frame s nowReset nowColor
  rw [tick_eq]
  exact ⟨h1, h2, h3, h4, rfl⟩

theorem animate_activatedPoints_of_disabled (s : GridEffect) (nowReset nowColor : Int)
    (h : s.resetInterval ≤ 0) :
    (animate s nowReset nowColor).1.activatedPoints = s.activatedPoints := by
  rw [animate_activatedPoints]
  split
  · simp [checkResetPoints, h]
  · rfl

/-! ## Monotonicity of activation -/

theorem run_moves_frames (id : String) :
    ∀ (evs : List Event) (s : GridEffect), s.resetInterval ≤ 0 →
      (∀ e ∈ evs, e.isMoveOrFrame = true) → id ∈ s.activatedPoints →
      ∃ s1, run s evs = some s1 ∧ id ∈ s1.activatedPoints := by
  intro evs
  induction evs with
  | nil => intro s _ _ hid; exact ⟨s, rfl, hid⟩
  | cons e es ih =>
    intro s hR hE hid
    have hes : ∀ e ∈ es, e.isMoveOrFrame = true := fun e he =>
      hE e (List.mem_cons_of_mem _ he)
    have he := hE e (List.mem_cons_self _ _)
    cases e with
    | mouseMove x y =>
      have h1 : (onMouseMove s x y).resetInterval ≤ 0 := by
        rw [(onMouseMove_frame s x y).2.2.2]; exact hR
      exact ih (onMouseMove s x y) h1 hes (subset_onMouseMove s x y id hid)
    | frame r c h =>
      have h1 : (tick s r c h).resetInterval ≤ 0 := by
        rw [(tick_frame s r c h).2.2.2.1]; exact hR
      have h2 : id ∈ (tick s r c h).activatedPoints := by
        rw [(tick_frame s r c h).2.2.2.2, animate_activatedPoints_of_disabled s r c hR]
        exact hid
      exact ih (tick s r c h) h1 hes h2
    | resize w => simp [Event.isMoveOrFrame] at he
    | setInteractive b => simp [Event.isMoveOrFrame] at he
    | destroy => simp [Event.isMoveOrFrame] at he

/-- C4 (activation monotonicity).  Every id in the ActivatedSet before
`onMouseMove` is in it afterwards, for any state and pointer position; an
animation frame with `resetInterval ≤ 0` leaves the ActivatedSet unchanged;
hence with `resetInterval ≤ 0` any sequence of pointer moves and frames returns
and keeps every id that was in the set. -/
theorem activation_monotone :
    (∀ (s : GridEffect) (mx my : Int) (id : String),
      id ∈ s.activatedPoints → id ∈ (onMouseMove s mx my).activatedPoints) ∧
    (∀ (s : GridEffect) (nowReset nowColor : Int) (handle : Nat), s.resetInterval ≤ 0 →
      (animate s nowReset nowColor).1.activatedPoints = s.activatedPoints ∧
      (tick s nowReset nowColor handle).activatedPoints = s.activatedPoints) ∧
    (∀ (s : GridEffect) (evs : List Event) (id : String), s.resetInterval ≤ 0 →
      (∀ e ∈ evs, e.isMoveOrFrame = true) → id ∈ s.activatedPoints →
      ∃ s1, run s evs = some s1 ∧ id ∈ s1.activatedPoints) := by
  refine ⟨subset_onMouseMove, ?_, ?_⟩
  · intro s r c h hR
    refine ⟨animate_activatedPoints_of_disabled s r c hR, ?_⟩
    rw [(tick_frame s r c h).2.2.2.2, animate_activatedPoints_of_disabled s r c hR]
  · intro s evs id hR hE hid
    exact run_moves_frames id evs s hR hE hid

theorem demoActive_mem : "45-60" ∈ demoActive.activatedPoints := by
  refine (mem_onMouseMove demoState 45 60 (by decide) (by decide) "45-60").mpr (Or.inr ?_)
  exact ⟨⟨45, 60, "45-60"⟩, by decide, rfl, by decide⟩

theorem demoActive_resetInterval : demoActive.resetInterval ≤ 0 := by
  unfold demoActive
  rw [(onMouseMove_frame demoState 45 60).2.2.2]
  decide

/-- C4, at a concrete input: the id `45-60`, activated in `demoActive`, survives
the pointer moving away, a frame, and the pointer moving into the header. -/
theorem activation_monotone_witness :
    "45-60" ∈ demoActive.activatedPoints ∧ demoActive.resetInterval ≤ 0 ∧
    (∀ e ∈ [Event.mouseMove 500 500, Event.frame 32 32 2, Event.mouseMove 45 0],
      e.isMoveOrFrame = true) ∧
    "45-60" ∈ (onMouseMove demoActive 500 500).activatedPoints ∧
    (animate demoActive 32 32).1.activatedPoints = demoActive.activatedPoints ∧
    ∃ s1, run demoActive
        [Event.mouseMove 500 500, Event.frame 32 32 2, Event.mouseMove 45 0] = some s1 ∧
      "45-60" ∈ s1.activatedPoints :=
  ⟨demoActive_mem, demoActive_resetInterval, by decide,
    activation_monotone.1 demoActive 500 500 "45-60" demoActive_mem,
    (activation_monotone.2.1 demoActive 32 32 2 demoActive_resetInterval).1,
    activation_monotone.2.2 demoActive _ "45-60" demoActive_resetInterval (by decide)
      demoActive_mem⟩

/-! ## Resize -/

theorem createPoints_eq_none_iff (W H : Nat) (spacingField : ℚ) (navHeight : Int) :
    createPoints W H spacingField navHeight = none ↔ loopsForever spacingField H := by
  unfold createPoints loopsForever
  by_cases h0 : mathRound spacingField = 0
  · by_cases h1 : 0 < H ∧ 0 ≤ spacingField
    · simp [h0, h1]
    · simp only [h0, if_true, h1, if_false, true_and]
      simp
  · simp [h0]

theorem measureNav_frame (s : GridEffect) (w : Window) :
    (measureNav s w).spacing = s.spacing ∧
    (measureNav s w).isInteractive = s.isInteractive ∧
    (measureNav s w).navHeight =
      (match w.topNav with
       | some h => (h : Int)
       | none => s.navHeight) := by
  unfold measureNav
  cases w.topNav <;> exact ⟨rfl, rfl, rfl⟩

theorem canvasDimension_of_lt (value fallback : Nat) (h : value < 2 ^ 31) :
    canvasDimension value fallback = value := by
  unfold canvasDimension
  have h1 : value % 2 ^ 32 = value := Nat.mod_eq_of_lt (by omega)
  simp only [h1]
  rw [if_pos (by omega)]

theorem canvasDimension_pos (value fallback : Nat)
    (h : 0 < canvasDimension value fallback) : 0 < value := by
  rcases Nat.eq_zero_or_pos value with h0 | h0
  · subst h0
    simp [canvasDimension] at h
  · exact h0

theorem not_loopsForever_canvasDimension (spacingField : ℚ) (H : Nat)
    (h : ¬ loopsForever spacingField H) :
    ¬ loopsForever spacingField (canvasDimension H 150) := by
  rintro ⟨h1, h2, h3⟩
  exact h ⟨h1, canvasDimension_pos H 150 h2, h3⟩

theorem resize_eq_some (s s1 : GridEffect) (w : Window) (h : resize s w = some s1) :
    createPoints (canvasDimension w.innerWidth 300) (canvasDimension w.innerHeight 150)
      s.spacing s.navHeight = some s1.points ∧
    s1.activatedPoints = [] ∧ s1.canvasWidth = canvasDimension w.innerWidth 300 ∧
    s1.canvasHeight = canvasDimension w.innerHeight 150 ∧ s1.navHeight = s.navHeight ∧
    s1.spacing = s.spacing ∧ s1.isInteractive = s.isInteractive := by
  unfold resize at h
  simp only at h
  cases hc : createPoints (canvasDimension w.innerWidth 300)
      (canvasDimension w.innerHeight 150) s.spacing s.navHeight with
  | none => rw [hc] at h; cases h
  | some pts =>
    rw [hc] at h
    cases h
    exact ⟨rfl, rfl, rfl, rfl, rfl, rfl, rfl⟩

theorem onResize_eq_none_iff (s : GridEffect) (w : Window) :
    onResize s w = none ↔ loopsForever s.spacing (canvasDimension w.innerHeight 150) := by
  rw [← createPoints_eq_none_iff (canvasDimension w.innerWidth 300)
    (canvasDimension w.innerHeight 150) s.spacing
    (measureNav s w).navHeight, ← (measureNav_frame s w).1]
  unfold onResize resize
  simp only
  cases createPoints (canvasDimension w.innerWidth 300) (canvasDimension w.innerHeight 150)
    (measureNav s w).spacing (measureNav s w).navHeight <;> simp

theorem onResize_forgets (s : GridEffect) (w : Window) (pts : List Point)
    (act : List String) :
    onResize { s with points := pts, activatedPoints := act } w = onResize s w := by
  unfold onResize resize measureNav
  cases w.topNav <;> rfl

/-- C6 (resize resets state).  For every prior state and every new viewport and
header, unless `createPoints` loops forever (the rounded spacing is `+0` and the
new canvas height is positive), `onResize` returns a state whose ActivatedSet
is empty, whose canvas size is what the canvas reads back after the new
viewport size has been assigned to it, whose `navHeight` is the re-measured
header height (the previous value when there is no header element), and whose
point list is what `createPoints` builds for these values; the previous point
list and ActivatedSet have no influence on the result.  For a viewport size
below `2 ^ 31` (a window reports its size as a 32-bit signed integer) the
canvas size is the viewport size, and the point list is what `createPoints`
builds for the viewport size. -/
theorem onResize_resets (s : GridEffect) (w : Window)
    (h : ¬ loopsForever s.spacing (canvasDimension w.innerHeight 150)) :
    ∃ s1, onResize s w = some s1 ∧
      s1.activatedPoints = [] ∧
      s1.canvasWidth = canvasDimension w.innerWidth 300 ∧
      s1.canvasHeight = canvasDimension w.innerHeight 150 ∧
      s1.navHeight = (match w.topNav with
        | some hgt => (hgt : Int)
        | none => s.navHeight) ∧
      createPoints s1.canvasWidth s1.canvasHeight s.spacing s1.navHeight = some s1.points ∧
      (∀ (pts : List Point) (act : List String),
        onResize { s with points := pts, activatedPoints := act } w = some s1) ∧
      (w.innerWidth < 2 ^ 31 → w.innerHeight < 2 ^ 31 →
        s1.canvasWidth = w.innerWidth ∧ s1.canvasHeight = w.innerHeight ∧
        createPoints w.innerWidth w.innerHeight s.spacing s1.navHeight =
          some s1.points) := by
  cases hr : onResize s w with
  | none => exact absurd ((onResize_eq_none_iff s w).mp hr) h
  | some s1 =>
    obtain ⟨h1, h2, h3, h4, h5, -, -⟩ := resize_eq_some (measureNav s w) s1 w hr
    obtain ⟨e1, -, e3⟩ := measureNav_frame s w
    have hcp : createPoints s1.canvasWidth s1.canvasHeight s.spacing s1.navHeight =
        some s1.points := by
      rw [h3, h4, h5, ← e1]; exact h1
    refine ⟨s1, rfl, h2, h3, h4, h5.trans e3, hcp, ?_, ?_⟩
    · intro pts act
      rw [onResize_forgets, hr]
    · intro hW hH
      have eW : s1.canvasWidth = w.innerWidth :=
        h3.trans (canvasDimension_of_lt _ _ hW)
      have eH : s1.canvasHeight = w.innerHeight :=
        h4.trans (canvasDimension_of_lt _ _ hH)
      refine ⟨eW, eH, ?_⟩
      rw [← eW, ← eH]
      exact hcp

theorem demoState_not_loopsForever (H : Nat) : ¬ loopsForever demoState.spacing H := by
  have e : demoState.spacing = ((15 : Int) : ℚ) := by
    have : demoState.spacing = (fields shippedOptions 0 0).spacing := rfl
    rw [this]
    simp [fields, shippedOptions, orNumber]
  rintro ⟨h, -, -⟩
  rw [e, mathRound_intCast] at h
  exact absurd h (by decide)

/-- C6, at a concrete input: `demoActive` resized to 200 by 50 under a header 40
high. -/
theorem onResize_resets_witness :
    ¬ loopsForever demoActive.spacing (canvasDimension 50 150) ∧
    (200 : Nat) < 2 ^ 31 ∧ (50 : Nat) < 2 ^ 31 ∧
    ∃ s1, onResize demoActive ⟨200, 50, some 40⟩ = some s1 ∧
      s1.activatedPoints = [] ∧
      s1.canvasWidth = canvasDimension 200 300 ∧
      s1.canvasHeight = canvasDimension 50 150 ∧
      s1.navHeight = 40 ∧
      createPoints s1.canvasWidth s1.canvasHeight demoActive.spacing s1.navHeight =
        some s1.points ∧
      (∀ (pts : List Point) (act : List String),
        onResize { demoActive with points := pts, activatedPoints := act }
          ⟨200, 50, some 40⟩ = some s1) ∧
      ((200 : Nat) < 2 ^ 31 → (50 : Nat) < 2 ^ 31 →
        s1.canvasWidth = 200 ∧ s1.canvasHeight = 50 ∧
        createPoints 200 50 demoActive.spacing s1.navHeight = some s1.points) :=
  ⟨demoState_not_loopsForever _, by decide, by decide,
    onResize_resets demoActive ⟨200, 50, some 40⟩ (demoState_not_loopsForever _)⟩

/-! ## The colour cycle -/

theorem getCurrentColor_fst (s : GridEffect) (now : Int) :
    (getCurrentColor s now).1 =
      if now - s.lastColorChangeTime > s.colorChangeInterval then
        { s with currentColorIndex := (s.currentColorIndex + 1) % 6,
                 lastColorChangeTime := now }
      else s := rfl

theorem colorRun_index_aux : ∀ (l : List Int) (s : GridEffect), s.currentColorIndex < 6 →
    (colorRun s l).currentColorIndex = (s.currentColorIndex + advances s l) % 6 := by
  intro l
  induction l with
  | nil => intro s h; simp [colorRun, advances, Nat.mod_eq_of_lt h]
  | cons t l ih =>
    intro s h
    simp only [colorRun, advances]
    by_cases hadv : t - s.lastColorChangeTime > s.colorChangeInterval
    · have hs : (getCurrentColor s t).1 =
          { s with currentColorIndex := (s.currentColorIndex + 1) % 6,
                   lastColorChangeTime := t } := by
        rw [getCurrentColor_fst, if_pos hadv]
      rw [hs, ih _ (Nat.mod_lt _ (by decide)), if_pos hadv]
      simp only
      omega
    · have hs : (getCurrentColor s t).1 = s := by
        rw [getCurrentColor_fst, if_neg hadv]
      rw [hs, ih s h, if_neg hadv]
      simp

theorem colorRun_interval : ∀ (l : List Int) (s : GridEffect),
    (colorRun s l).colorChangeInterval = s.colorChangeInterval := by
  intro l
  induction l with
  | nil => intro s; rfl
  | cons t l ih =>
    intro s
    simp only [colorRun]
    rw [ih, getCurrentColor_fst]
    split <;> rfl

theorem colorRun_lower : ∀ (l : List Int) (s : GridEffect),
    s.lastColorChangeTime + (advances s l : Int) * (s.colorChangeInterval + 1) ≤
      (colorRun s l).lastColorChangeTime := by
  intro l
  induction l with
  | nil => intro s; simp [colorRun, advances]
  | cons t l ih =>
    intro s
    simp only [colorRun, advances]
    by_cases hadv : t - s.lastColorChangeTime > s.colorChangeInterval
    · have hs : (getCurrentColor s t).1 =
          { s with currentColorIndex := (s.currentColorIndex + 1) % 6,
                   lastColorChangeTime := t } := by
        rw [getCurrentColor_fst, if_pos hadv]
      have := ih (getCurrentColor s t).1
      rw [hs] at this ⊢
      simp only at this
      rw [if_pos hadv]
      push_cast
      nlinarith
    · have hs : (getCurrentColor s t).1 = s := by
        rw [getCurrentColor_fst, if_neg hadv]
      rw [hs, if_neg hadv]
      simpa using ih s

theorem colorRun_upper (B : Int) : ∀ (l : List Int) (s : GridEffect),
    s.lastColorChangeTime ≤ B → (∀ x ∈ l, x ≤ B) →
    (colorRun s l).lastColorChangeTime ≤ B := by
  intro l
  induction l with
  | nil => intro s h _; exact h
  | cons t l ih =>
    intro s h hl
    simp only [colorRun]
    apply ih
    · rw [getCurrentColor_fst]
      split
      · exact hl t (List.mem_cons_self _ _)
      · exact h
    · intro x hx
      exact hl x (List.mem_cons_of_mem _ hx)

/-- C7, refuted as stated: from index 0 with `lastColorChangeTime = 0` and the
interval 20000, one call of `getCurrentColor` at time 50000 leaves the index at
1 while `floor(50000 / 20000) mod 6` is 2; a call at time 20000 leaves it at 0
while the formula gives 1; and with a call at 20001 before the call at 50000
the index is 2, so it depends on the calls in between. -/
theorem colorCycle_floor_counterexample :
    (fields shippedOptions 0 0).currentColorIndex = 0 ∧
    (fields shippedOptions 0 0).lastColorChangeTime = 0 ∧
    (fields shippedOptions 0 0).colorChangeInterval = 20000 ∧
    (colorRun (fields shippedOptions 0 0) [50000]).currentColorIndex = 1 ∧
    ((50000 - 0) / 20000 : Int) % 6 = 2 ∧
    (colorRun (fields shippedOptions 0 0) [20000]).currentColorIndex = 0 ∧
    ((20000 - 0) / 20000 : Int) % 6 = 1 ∧
    (colorRun (fields shippedOptions 0 0) [20001, 50000]).currentColorIndex = 2 := by
  decide

/-- C7, amended.  Starting from index 0 with `lastColorChangeTime = t0` and
calling `getCurrentColor` at non-decreasing timestamps ending with `t`, the
active colour index after the call at `t` is `k mod 6`, where `k` is the number
of calls that found more than the interval `I` elapsed since the last change;
`k * (I + 1) ≤ t - t0`, so `k ≤ floor((t - t0) / I)` when `I > 0`. -/
theorem colorRun_index (s : GridEffect) (ts : List Int) (t : Int)
    (h0 : s.currentColorIndex = 0)
    (hsorted : (s.lastColorChangeTime :: (ts ++ [t])).Sorted (· ≤ ·)) :
    (colorRun s (ts ++ [t])).currentColorIndex = advances s (ts ++ [t]) % 6 ∧
    (advances s (ts ++ [t]) : Int) * (s.colorChangeInterval + 1) ≤
      t - s.lastColorChangeTime ∧
    (0 < s.colorChangeInterval →
      (advances s (ts ++ [t]) : Int) ≤
        (t - s.lastColorChangeTime) / s.colorChangeInterval) := by
  have hidx := colorRun_index_aux (ts ++ [t]) s (by omega)
  rw [h0, Nat.zero_add] at hidx
  have hlow := colorRun_lower (ts ++ [t]) s
  rw [List.Sorted, List.pairwise_cons] at hsorted
  have ht0 : s.lastColorChangeTime ≤ t := hsorted.1 t (by simp)
  have hall : ∀ x ∈ ts ++ [t], x ≤ t := by
    intro x hx
    rcases List.mem_append.mp hx with h | h
    · exact (List.pairwise_append.mp hsorted.2).2.2 x h t (by simp)
    · simp at h; omega
  have hup := colorRun_upper t (ts ++ [t]) s ht0 hall
  have hbound : (advances s (ts ++ [t]) : Int) * (s.colorChangeInterval + 1) ≤
      t - s.lastColorChangeTime := by linarith
  refine ⟨hidx, hbound, ?_⟩
  intro hI
  rw [Int.le_ediv_iff_mul_le hI]
  have hk : (0 : Int) ≤ (advances s (ts ++ [t]) : Int) := Int.ofNat_nonneg _
  nlinarith

/-- C7 amended, at a concrete input: calls at 20001 and 50000 after a change at
time 0. -/
theorem colorRun_index_witness :
    (fields shippedOptions 0 0).currentColorIndex = 0 ∧
    ((fields shippedOptions 0 0).lastColorChangeTime :: ([20001] ++ [50000])).Sorted
      (· ≤ ·) ∧
    (colorRun (fields shippedOptions 0 0) ([20001] ++ [50000])).currentColorIndex =
      advances (fields shippedOptions 0 0) ([20001] ++ [50000]) % 6 ∧
    (advances (fields shippedOptions 0 0) ([20001] ++ [50000]) : Int) *
        ((fields shippedOptions 0 0).colorChangeInterval + 1) ≤
      50000 - (fields shippedOptions 0 0).lastColorChangeTime ∧
    (0 < (fields shippedOptions 0 0).colorChangeInterval →
      (advances (fields shippedOptions 0 0) ([20001] ++ [50000]) : Int) ≤
        (50000 - (fields shippedOptions 0 0).lastColorChangeTime) /
          (fields shippedOptions 0 0).colorChangeInterval) :=
  ⟨by decide, by decide,
    colorRun_index (fields shippedOptions 0 0) [20001] 50000 (by decide) (by decide)⟩

/-! ## The interactivity toggle -/

theorem setInteractive_false (s : GridEffect) :
    (setInteractive s false).isInteractive = false ∧
    (setInteractive s false).activatedPoints = [] ∧
    (setInteractive s false).points = s.points ∧
    (setInteractive s false).navHeight = s.navHeight :=
  ⟨rfl, rfl, rfl, rfl⟩

theorem setInteractive_true (s : GridEffect) :
    (setInteractive s true).isInteractive = true ∧
    (setInteractive s true).activatedPoints = s.activatedPoints ∧
    (setInteractive s true).points = s.points ∧
    (setInteractive s true).navHeight = s.navHeight :=
  ⟨rfl, rfl, rfl, rfl⟩

theorem onMouseMove_of_not_interactive (s : GridEffect) (mx my : Int)
    (h : s.isInteractive = false) :
    (onMouseMove s mx my).activatedPoints = s.activatedPoints := by
  simp [onMouseMove, h]

theorem animate_of_not_interactive (s : GridEffect) (nowReset nowColor : Int)
    (h : s.isInteractive = false) :
    (animate s nowReset nowColor).1.activatedPoints = s.activatedPoints := by
  rw [animate_activatedPoints]
  simp [h]

theorem onResize_eq_some (s s1 : GridEffect) (w : Window) (h : onResize s w = some s1) :
    s1.activatedPoints = [] ∧ s1.isInteractive = s.isInteractive ∧
    createPoints (canvasDimension w.innerWidth 300) (canvasDimension w.innerHeight 150)
      s.spacing s1.navHeight = some s1.points := by
  obtain ⟨h1, h2, -, -, h5, -, h7⟩ := resize_eq_some (measureNav s w) s1 w h
  obtain ⟨e1, e2, -⟩ := measureNav_frame s w
  refine ⟨h2, h7.trans e2, ?_⟩
  rw [h5, ← e1]
  exact h1

theorem step_stays_off (s s1 : GridEffect) (e : Event)
    (hI : s.isInteractive = false) (hA : s.activatedPoints = [])
    (he : e.staysOff = true) (h : step s e = some s1) :
    s1.isInteractive = false ∧ s1.activatedPoints = [] := by
  cases e with
  | resize w =>
    obtain ⟨h1, h2, -⟩ := onResize_eq_some s s1 w h
    exact ⟨h2.trans hI, h1⟩
  | mouseMove x y =>
    simp only [step, Option.some.injEq] at h
    subst h
    exact ⟨(onMouseMove_frame s x y).2.2.1.trans hI,
      (onMouseMove_of_not_interactive s x y hI).trans hA⟩
  | frame r c hd =>
    simp only [step, Option.some.injEq] at h
    subst h
    refine ⟨(tick_frame s r c hd).2.2.1.trans hI, ?_⟩
    rw [(tick_frame s r c hd).2.2.2.2, animate_of_not_interactive s r c hI]
    exact hA
  | setInteractive b =>
    cases b with
    | true => simp [Event.staysOff] at he
    | false =>
      simp only [step, Option.some.injEq] at h
      subst h
      exact ⟨rfl, rfl⟩
  | destroy =>
    simp only [step, Option.some.injEq] at h
    subst h
    exact ⟨hI, rfl⟩

theorem run_stays_off : ∀ (evs : List Event) (s s1 : GridEffect),
    s.isInteractive = false → s.activatedPoints = [] →
    (∀ e ∈ evs, e.staysOff = true) → run s evs = some s1 →
    s1.isInteractive = false ∧ s1.activatedPoints = [] := by
  intro evs
  induction evs with
  | nil =>
    intro s s1 hI hA _ h
    simp only [run, Option.some.injEq] at h
    subst h
    exact ⟨hI, hA⟩
  | cons e es ih =>
    intro s s1 hI hA hE h
    simp only [run] at h
    cases hs : step s e with
    | none => rw [hs] at h; cases h
    | some s2 =>
      rw [hs] at h
      obtain ⟨h1, h2⟩ := step_stays_off s s2 e hI hA
        (hE e (List.mem_cons_self _ _)) hs
      exact ih s2 s1 h1 h2 (fun e he => hE e (List.mem_cons_of_mem _ he)) h

theorem run_moves_returns : ∀ (evs : List Event) (s : GridEffect),
    (∀ e ∈ evs, e.isMouseMove = true) → ∃ s1, run s evs = some s1 := by
  intro evs
  induction evs with
  | nil => intro s _; exact ⟨s, rfl⟩
  | cons e es ih =>
    intro s hE
    have he := hE e (List.mem_cons_self _ _)
    cases e with
    | mouseMove x y =>
      exact ih (onMouseMove s x y) (fun e he => hE e (List.mem_cons_of_mem _ he))
    | resize w => simp [Event.isMouseMove] at he
    | frame r c h => simp [Event.isMouseMove] at he
    | setInteractive b => simp [Event.isMouseMove] at he
    | destroy => simp [Event.isMouseMove] at he

theorem staysOff_of_isMouseMove (e : Event) (h : e.isMouseMove = true) :
    e.staysOff = true := by
  cases e <;> simp_all [Event.isMouseMove, Event.staysOff]

/-- C8 (interactivity toggle).  For every state, `setInteractive(false)` empties
the ActivatedSet; afterwards every sequence of pointer-move events returns and
leaves it empty, and so does any sequence of operations without
`setInteractive(true)` whenever it returns; `setInteractive(true)` does not
change the ActivatedSet. -/
theorem setInteractive_off (s : GridEffect) :
    (setInteractive s false).activatedPoints = [] ∧
    (∀ evs : List Event, (∀ e ∈ evs, e.isMouseMove = true) →
      ∃ s1, run (setInteractive s false) evs = some s1 ∧ s1.activatedPoints = []) ∧
    (∀ (evs : List Event) (s1 : GridEffect), (∀ e ∈ evs, e.staysOff = true) →
      run (setInteractive s false) evs = some s1 → s1.activatedPoints = []) ∧
    (setInteractive s true).activatedPoints = s.activatedPoints := by
  refine ⟨rfl, ?_, ?_, rfl⟩
  · intro evs hE
    obtain ⟨s1, h1⟩ := run_moves_returns evs (setInteractive s false) hE
    exact ⟨s1, h1, (run_stays_off evs _ s1 rfl rfl
      (fun e he => staysOff_of_isMouseMove e (hE e he)) h1).2⟩
  · intro evs s1 hE h1
    exact (run_stays_off evs _ s1 rfl rfl hE h1).2

/-- C8, at a concrete input: `demoActive`, whose ActivatedSet is not empty, is
switched off and the pointer then crosses the lattice. -/
theorem setInteractive_off_witness :
    demoActive.activatedPoints ≠ [] ∧
    (∀ e ∈ [Event.mouseMove 45 60, Event.mouseMove 50 60, Event.mouseMove 60 75],
      e.isMouseMove = true) ∧
    ∃ s1, run (setInteractive demoActive false)
        [Event.mouseMove 45 60, Event.mouseMove 50 60, Event.mouseMove 60 75] = some s1 ∧
      s1.activatedPoints = [] :=
  ⟨List.ne_nil_of_mem demoActive_mem, by decide,
    (setInteractive_off demoActive).2.1 _ (by decide)⟩

/-! ## Invariants of the reachable states -/

theorem foldl_invariant {α β : Type} (P : β → Prop) (f : β → α → β)
    (hf : ∀ b a, P b → P (f b a)) : ∀ (l : List α) (b : β), P b → P (l.foldl f b) := by
  intro l
  induction l with
  | nil => intro b hb; exact hb
  | cons a l ih => intro b hb; exact ih (f b a) (hf b a hb)

theorem cellStep_margin (spacing navHeight : Int) (i j : Nat) (g : Gen)
    (hg : ∀ p ∈ g.points, navHeight ≤ p.y) :
    ∀ p ∈ (cellStep spacing navHeight i j g).points, navHeight ≤ p.y := by
  unfold cellStep
  by_cases hy : (i : Int) * spacing ≥ navHeight
  · by_cases hm : pointId ((j : Int) * spacing) ((i : Int) * spacing) ∈ g.pointMap
    · simpa [hy, hm] using hg
    · intro p hp
      simp only [hy, hm, if_true, if_false, List.mem_append, List.mem_singleton] at hp
      rcases hp with hp | rfl
      · exact hg p hp
      · exact hy
  · simpa [hy] using hg

theorem createPoints_margin (W H : Nat) (spacingField : ℚ) (navHeight : Int)
    (pts : List Point) (h : createPoints W H spacingField navHeight = some pts) :
    ∀ p ∈ pts, navHeight ≤ p.y := by
  unfold createPoints at h
  by_cases h0 : mathRound spacingField = 0
  · simp only [h0, if_true] at h
    split at h
    · cases h
    · cases h
      intro p hp
      cases hp
  · simp only [h0, if_false, Option.some.injEq] at h
    subst h
    rw [rowLoop_eq_foldl]
    exact foldl_invariant (fun g : Gen => ∀ p ∈ g.points, navHeight ≤ p.y) _
      (fun g c hg => cellStep_margin (mathRound spacingField) navHeight c.1 c.2 g hg) _ _
      (by intro p hp; cases hp)

theorem resize_margin (s s1 : GridEffect) (w : Window) (h : resize s w = some s1) :
    ∀ p ∈ s1.points, s1.navHeight ≤ p.y := by
  obtain ⟨h1, -, -, -, h5, -, -⟩ := resize_eq_some s s1 w h
  rw [h5]
  exact createPoints_margin _ _ _ _ _ h1

theorem construct_eq_some (options : Options) (w : Window) (nowColor nowReset : Int)
    (frameReset frameColor : Int) (handle : Nat) (s : GridEffect)
    (h : construct options w nowColor nowReset frameReset frameColor handle = some s) :
    ∃ s1, resize (measureNav (fields options nowColor nowReset) w) w = some s1 ∧
      s = tick s1 frameReset frameColor handle := by
  unfold construct init at h
  cases hr : resize (measureNav (fields options nowColor nowReset) w) w with
  | none => rw [hr] at h; cases h
  | some s1 =>
    rw [hr] at h
    simp only [Option.some.injEq] at h
    exact ⟨s1, rfl, h.symm⟩

theorem checkResetPoints_activatedPoints (s : GridEffect) (now : Int) :
    (checkResetPoints s now).activatedPoints = s.activatedPoints ∨
    (checkResetPoints s now).activatedPoints = [] := by
  unfold checkResetPoints
  split
  · exact Or.inl rfl
  · split
    · exact Or.inr rfl
    · exact Or.inl rfl

theorem tick_activatedPoints (s : GridEffect) (nowReset nowColor : Int) (handle : Nat) :
    (tick s nowReset nowColor handle).activatedPoints = s.activatedPoints ∨
    (tick s nowReset nowColor handle).activatedPoints = [] := by
  rw [(tick_frame s nowReset nowColor handle).2.2.2.2, animate_activatedPoints]
  split
  · exact checkResetPoints_activatedPoints s nowReset
  · exact Or.inl rfl

theorem mem_onMouseMove_imp (s : GridEffect) (mx my : Int) (id : String)
    (h : id ∈ (onMouseMove s mx my).activatedPoints) :
    id ∈ s.activatedPoints ∨ ∃ p ∈ s.points, p.id = id := by
  unfold onMouseMove at h
  by_cases hI : s.isInteractive = true
  · simp only [hI, if_true] at h
    unfold activatePointsInBrushArea at h
    split at h
    · exact Or.inl h
    · rcases (mem_foldl_setAdd _ _ _ _).mp h with h1 | ⟨p, hp, hid, -⟩
      · exact Or.inl h1
      · exact Or.inr ⟨p, hp, hid⟩
  · simp only [hI] at h
    exact Or.inl h

theorem activatedValid_of_nil (s : GridEffect) (h : s.activatedPoints = []) :
    ActivatedValid s := by
  intro id hid
  rw [h] at hid
  cases hid

theorem step_activatedValid (s s1 : GridEffect) (e : Event) (hs : ActivatedValid s)
    (h : step s e = some s1) : ActivatedValid s1 := by
  cases e with
  | resize w => exact activatedValid_of_nil s1 (onResize_eq_some s s1 w h).1
  | mouseMove x y =>
    simp only [step, Option.some.injEq] at h
    subst h
    intro id hid
    rw [(onMouseMove_frame s x y).1]
    rcases mem_onMouseMove_imp s x y id hid with h1 | h1
    · exact hs id h1
    · exact h1
  | frame r c hd =>
    simp only [step, Option.some.injEq] at h
    subst h
    rcases tick_activatedPoints s r c hd with h1 | h1
    · intro id hid
      rw [h1] at hid
      rw [(tick_frame s r c hd).1]
      exact hs id hid
    · exact activatedValid_of_nil _ h1
  | setInteractive b =>
    simp only [step, Option.some.injEq] at h
    subst h
    cases b with
    | true => exact hs
    | false => exact activatedValid_of_nil _ rfl
  | destroy =>
    simp only [step, Option.some.injEq] at h
    subst h
    exact activatedValid_of_nil _ rfl

theorem step_belowMargin (s s1 : GridEffect) (e : Event) (hs : BelowMargin s)
    (h : step s e = some s1) : BelowMargin s1 := by
  cases e with
  | resize w => exact resize_margin (measureNav s w) s1 w h
  | mouseMove x y =>
    simp only [step, Option.some.injEq] at h
    subst h
    intro p hp
    rw [(onMouseMove_frame s x y).1] at hp
    rw [(onMouseMove_frame s x y).2.1]
    exact hs p hp
  | frame r c hd =>
    simp only [step, Option.some.injEq] at h
    subst h
    intro p hp
    rw [(tick_frame s r c hd).1] at hp
    rw [(tick_frame s r c hd).2.1]
    exact hs p hp
  | setInteractive b =>
    simp only [step, Option.some.injEq] at h
    subst h
    cases b <;> exact hs
  | destroy =>
    simp only [step, Option.some.injEq] at h
    subst h
    intro p hp
    cases hp

theorem reachable_demoState : Reachable demoState :=
  Reachable.construct shippedOptions demoWindow 0 0 16 16 1 demoState construct_demo

theorem reachable_demoActive : Reachable demoActive :=
  Reachable.step demoState demoActive (Event.mouseMove 45 60) reachable_demoState rfl

/-- C9 (validity of the ActivatedSet).  In every state reachable from
construction by resize, pointer-move, frame, `setInteractive` and `destroy`
operations, every id in the ActivatedSet is the id of a point of the current
point list. -/
theorem reachable_activatedValid (s : GridEffect) (h : Reachable s) :
    ∀ id ∈ s.activatedPoints, ∃ p ∈ s.points, p.id = id := by
  induction h with
  | construct options w nowColor nowReset frameReset frameColor handle s hc =>
    obtain ⟨s1, hr, rfl⟩ := construct_eq_some _ _ _ _ _ _ _ _ hc
    have h1 : s1.activatedPoints = [] := (resize_eq_some _ s1 w hr).2.1
    rcases tick_activatedPoints s1 frameReset frameColor handle with h2 | h2
    · exact activatedValid_of_nil _ (h2.trans h1)
    · exact activatedValid_of_nil _ h2
  | step s s1 e _ hstep ih => exact step_activatedValid s s1 e ih hstep

/-- C9, at a concrete input: the reachable state `demoActive`, whose
ActivatedSet is not empty. -/
theorem reachable_activatedValid_witness :
    Reachable demoActive ∧ "45-60" ∈ demoActive.activatedPoints ∧
    ∀ id ∈ demoActive.activatedPoints, ∃ p ∈ demoActive.points, p.id = id :=
  ⟨reachable_demoActive, demoActive_mem,
    reachable_activatedValid demoActive reachable_demoActive⟩

/-- C10 (top-margin invariant of the field).  In every state reachable from
construction, also after resizes that re-measure the header, every point of the
point list has `y ≥ navHeight` for the current `navHeight`. -/
theorem reachable_belowMargin (s : GridEffect) (h : Reachable s) :
    ∀ p ∈ s.points, s.navHeight ≤ p.y := by
  induction h with
  | construct options w nowColor nowReset frameReset frameColor handle s hc =>
    obtain ⟨s1, hr, rfl⟩ := construct_eq_some _ _ _ _ _ _ _ _ hc
    intro p hp
    rw [(tick_frame s1 frameReset frameColor handle).1] at hp
    rw [(tick_frame s1 frameReset frameColor handle).2.1]
    exact resize_margin _ s1 w hr p hp
  | step s s1 e _ hstep ih => exact step_belowMargin s s1 e ih hstep

/-- C10, at a concrete input: the reachable state `demoState`, whose field has
35 points under a header 30 high. -/
theorem reachable_belowMargin_witness :
    Reachable demoState ∧ demoState.points.length = 35 ∧ demoState.navHeight = 30 ∧
    ∀ p ∈ demoState.points, demoState.navHeight ≤ p.y :=
  ⟨reachable_demoState, by decide, by decide,
    reachable_belowMargin demoState reachable_demoState⟩

/-! ## The spacing that `createPoints` uses -/

theorem one_le_mathRound_iff (v : ℚ) : 1 ≤ mathRound v ↔ 1 / 2 ≤ v := by
  unfold mathRound
  rw [Int.le_floor]
  constructor
  · intro h; push_cast at h; linarith
  · intro h; push_cast; linarith

theorem mathRound_eq_zero_iff (v : ℚ) : mathRound v = 0 ↔ -(1 / 2) ≤ v ∧ v < 1 / 2 := by
  unfold mathRound
  rw [Int.floor_eq_iff]
  constructor
  · rintro ⟨h1, h2⟩
    push_cast at h1 h2
    constructor <;> linarith
  · rintro ⟨h1, h2⟩
    push_cast
    constructor <;> linarith

theorem mathCeilDiv_nonneg (n : Nat) (spacing : Int) (hS : 0 < spacing) :
    0 ≤ mathCeilDiv n spacing := by
  unfold mathCeilDiv
  apply Int.ceil_nonneg
  have hq : (0 : ℚ) < (spacing : ℚ) := by exact_mod_cast hS
  positivity

/-- C11, refuted as stated: the option `spacing: 0.3` is not replaced by the
default, rounds to 0, and `createPoints` never returns on a 100 by 100 canvas;
the option `spacing: -5` rounds to -5. -/
theorem spacing_rounds_to_zero_counterexample :
    orNumber (some (3 / 10)) 10 = 3 / 10 ∧
    mathRound (orNumber (some (3 / 10)) 10) = 0 ∧
    createPoints 100 100 (orNumber (some (3 / 10)) 10) 0 = none ∧
    mathRound (orNumber (some (-5)) 10) = -5 := by
  have e : orNumber (some (3 / 10)) 10 = 3 / 10 := by
    simp [orNumber]
  have r : mathRound (3 / 10) = 0 := by
    rw [mathRound_eq_zero_iff]
    constructor <;> norm_num
  refine ⟨e, by rw [e, r], ?_, ?_⟩
  · rw [e, createPoints_eq_none_iff]
    exact ⟨r, by decide, by norm_num⟩
  · have e5 : orNumber (some (-5)) 10 = ((-5 : Int) : ℚ) := by
      simp [orNumber]
    rw [e5, mathRound_intCast]

/-- C11, amended.  The spacing that `createPoints` uses is an integer `≥ 1`
exactly when the `spacing` field (the option, or 10 when the option is absent
or zero) is at least `1 / 2`; in that case `rows` and `cols` are non-negative
integers and `createPoints` returns.  An absent or zero option gives the
field 10. -/
theorem effective_spacing (o : Option ℚ) (W H : Nat) (M : Int)
    (h : 1 / 2 ≤ orNumber o 10) :
    1 ≤ mathRound (orNumber o 10) ∧
    0 ≤ mathCeilDiv H (mathRound (orNumber o 10)) ∧
    0 ≤ mathCeilDiv W (mathRound (orNumber o 10)) ∧
    (∃ pts : List Point, createPoints W H (orNumber o 10) M = some pts) ∧
    orNumber none 10 = 10 ∧ orNumber (some 0) 10 = 10 ∧
    (∀ v : ℚ, 1 ≤ mathRound v ↔ 1 / 2 ≤ v) := by
  have h1 : 1 ≤ mathRound (orNumber o 10) := (one_le_mathRound_iff _).mpr h
  refine ⟨h1, mathCeilDiv_nonneg _ _ (by omega), mathCeilDiv_nonneg _ _ (by omega),
    ⟨_, createPoints_of_round W H _ _ M rfl h1⟩, rfl, ?_, one_le_mathRound_iff⟩
  simp [orNumber]

/-- C11 amended, at a concrete input: the shipped option `spacing: 15`. -/
theorem effective_spacing_witness :
    (1 / 2 : ℚ) ≤ orNumber (some 15) 10 ∧
    1 ≤ mathRound (orNumber (some 15) 10) ∧
    ∃ pts : List Point, createPoints 100 100 (orNumber (some 15) 10) 30 = some pts :=
  have h : (1 / 2 : ℚ) ≤ orNumber (some 15) 10 := by
    simp [orNumber]; norm_num
  ⟨h, (effective_spacing (some 15) 100 100 30 h).1,
    (effective_spacing (some 15) 100 100 30 h).2.2.2.1⟩

/-! ## The periodic reset -/

theorem step_isInteractive_false (s s1 : GridEffect) (e : Event)
    (hs : s.isInteractive = false → s.activatedPoints = [])
    (h : step s e = some s1) : s1.isInteractive = false → s1.activatedPoints = [] := by
  cases e with
  | resize w => intro _; exact (onResize_eq_some s s1 w h).1
  | mouseMove x y =>
    simp only [step, Option.some.injEq] at h
    subst h
    intro hI
    rw [(onMouseMove_frame s x y).2.2.1] at hI
    rw [onMouseMove_of_not_interactive s x y hI]
    exact hs hI
  | frame r c hd =>
    simp only [step, Option.some.injEq] at h
    subst h
    intro hI
    rw [(tick_frame s r c hd).2.2.1] at hI
    rw [(tick_frame s r c hd).2.2.2.2, animate_of_not_interactive s r c hI]
    exact hs hI
  | setInteractive b =>
    simp only [step, Option.some.injEq] at h
    subst h
    cases b with
    | true => intro hI; cases hI
    | false => intro _; rfl
  | destroy =>
    simp only [step, Option.some.injEq] at h
    subst h
    intro _; rfl

theorem reachable_off_empty (s : GridEffect) (h : Reachable s) :
    s.isInteractive = false → s.activatedPoints = [] := by
  induction h with
  | construct options w nowColor nowReset frameReset frameColor handle s hc =>
    obtain ⟨s1, hr, rfl⟩ := construct_eq_some _ _ _ _ _ _ _ _ hc
    intro hI
    rw [(tick_frame s1 frameReset frameColor handle).2.2.1,
      (resize_eq_some _ s1 w hr).2.2.2.2.2.2] at hI
    have : (measureNav (fields options nowColor nowReset) w).isInteractive = true := by
      rw [(measureNav_frame _ w).2.1]; rfl
    rw [this] at hI
    cases hI
  | step s s1 e _ hstep ih => exact step_isInteractive_false s s1 e ih hstep

theorem getCurrentColor_lastResetTime (s : GridEffect) (now : Int) :
    (getCurrentColor s now).1.lastResetTime = s.lastResetTime := by
  rw [getCurrentColor_fst]
  split <;> rfl

theorem animate_lastResetTime (s : GridEffect) (nowReset nowColor : Int) :
    (animate s nowReset nowColor).1.lastResetTime =
      (if s.isInteractive then checkResetPoints s nowReset else s).lastResetTime := by
  rw [animate_fst]
  exact getCurrentColor_lastResetTime _ nowColor

/-- C12 (periodic reset).  For every state and time `now`: with
`resetInterval ≤ 0`, `checkResetPoints` changes nothing; with
`resetInterval > 0` it empties the ActivatedSet and sets `lastResetTime` to
`now` when `now - lastResetTime > resetInterval`, and changes nothing
otherwise.  In every reachable state whose ActivatedSet is not empty, an
animation frame leaves the ActivatedSet and `lastResetTime` as this check
leaves them, whatever the pointer fields are; the same holds in any state with
interactivity on. -/
theorem periodic_reset (s : GridEffect) (now : Int) :
    (s.resetInterval ≤ 0 → checkResetPoints s now = s) ∧
    (0 < s.resetInterval → ((now - s.lastResetTime : Int) : ℚ) > s.resetInterval →
      checkResetPoints s now = { s with activatedPoints := [], lastResetTime := now }) ∧
    (0 < s.resetInterval → ¬ ((now - s.lastResetTime : Int) : ℚ) > s.resetInterval →
      checkResetPoints s now = s) ∧
    (Reachable s → s.activatedPoints ≠ [] → ∀ (nowColor : Int) (m pm : Mouse),
      (animate { s with mouse := m, prevMouse := pm } now nowColor).1.activatedPoints =
        (checkResetPoints s now).activatedPoints ∧
      (animate { s with mouse := m, prevMouse := pm } now nowColor).1.lastResetTime =
        (checkResetPoints s now).lastResetTime) ∧
    (s.isInteractive = true → ∀ nowColor : Int,
      (animate s now nowColor).1.activatedPoints = (checkResetPoints s now).activatedPoints ∧
      (animate s now nowColor).1.lastResetTime = (checkResetPoints s now).lastResetTime) := by
  have hon : ∀ t : GridEffect, t.isInteractive = true → ∀ nowColor : Int,
      (animate t now nowColor).1.activatedPoints = (checkResetPoints t now).activatedPoints ∧
      (animate t now nowColor).1.lastResetTime = (checkResetPoints t now).lastResetTime := by
    intro t ht nowColor
    rw [animate_activatedPoints, animate_lastResetTime]
    simp [ht]
  refine ⟨?_, ?_, ?_, ?_, hon s⟩
  · intro h
    simp [checkResetPoints, h]
  · intro h0 h1
    have hn : ¬ s.resetInterval ≤ 0 := not_le.mpr h0
    simp only [checkResetPoints, hn, if_false, h1, if_true]
  · intro h0 h1
    have hn : ¬ s.resetInterval ≤ 0 := not_le.mpr h0
    simp only [checkResetPoints, hn, if_false, h1]
  · intro hr hne nowColor m pm
    have hI : s.isInteractive = true := by
      cases hb : s.isInteractive with
      | true => rfl
      | false => exact absurd (reachable_off_empty s hr hb) hne
    have h2 := hon { s with mouse := m, prevMouse := pm } hI nowColor
    have e1 : (checkResetPoints { s with mouse := m, prevMouse := pm } now).activatedPoints =
        (checkResetPoints s now).activatedPoints := by
      simp only [checkResetPoints]
      split
      · rfl
      · split <;> rfl
    have e2 : (checkResetPoints { s with mouse := m, prevMouse := pm } now).lastResetTime =
        (checkResetPoints s now).lastResetTime := by
      simp only [checkResetPoints]
      split
      · rfl
      · split <;> rfl
    rw [← e1, ← e2]
    exact h2

/-- C12, at a concrete input: the reachable state `demoActive`, whose
ActivatedSet is not empty and whose reset is disabled. -/
theorem periodic_reset_witness :
    demoActive.resetInterval ≤ 0 ∧ Reachable demoActive ∧
    demoActive.activatedPoints ≠ [] ∧ demoActive.isInteractive = true ∧
    checkResetPoints demoActive 40000 = demoActive ∧
    ((animate { demoActive with mouse := ⟨0, 0⟩, prevMouse := ⟨9, 9⟩ } 40000
        40000).1.activatedPoints =
        (checkResetPoints demoActive 40000).activatedPoints ∧
      (animate { demoActive with mouse := ⟨0, 0⟩, prevMouse := ⟨9, 9⟩ } 40000
        40000).1.lastResetTime =
        (checkResetPoints demoActive 40000).lastResetTime) ∧
    ((animate demoActive 40000 40000).1.activatedPoints =
        (checkResetPoints demoActive 40000).activatedPoints ∧
      (animate demoActive 40000 40000).1.lastResetTime =
        (checkResetPoints demoActive 40000).lastResetTime) :=
  ⟨demoActive_resetInterval, reachable_demoActive, List.ne_nil_of_mem demoActive_mem,
    by decide,
    (periodic_reset demoActive 40000).1 demoActive_resetInterval,
    (periodic_reset demoActive 40000).2.2.2.1 reachable_demoActive
      (List.ne_nil_of_mem demoActive_mem) 40000 ⟨0, 0⟩ ⟨9, 9⟩,
    (periodic_reset demoActive 40000).2.2.2.2 (by decide) 40000⟩

/-! ## One step of the colour cycle -/

theorem advances_le_length : ∀ (l : List Int) (s : GridEffect), advances s l ≤ l.length := by
  intro l
  induction l with
  | nil => intro s; simp [advances]
  | cons t l ih =>
    intro s
    simp only [advances, List.length_cons]
    have := ih (getCurrentColor s t).1
    split <;> omega

theorem getCurrentColor_index_lt (s : GridEffect) (now : Int)
    (h : s.currentColorIndex < 6) : (getCurrentColor s now).1.currentColorIndex < 6 := by
  rw [getCurrentColor_fst]
  split
  · exact Nat.mod_lt _ (by decide)
  · exact h

theorem colorRun_six (s : GridEffect) (ts : List Int) (hlen : ts.length = 6)
    (hadv : advances s ts = 6) : (colorRun s ts).currentColorIndex = s.currentColorIndex % 6 := by
  cases ts with
  | nil => simp at hlen
  | cons t ts =>
    simp only [advances, List.length_cons] at hadv hlen
    have hle := advances_le_length ts (getCurrentColor s t).1
    by_cases ha : t - s.lastColorChangeTime > s.colorChangeInterval
    · rw [if_pos ha] at hadv
      have hs : (getCurrentColor s t).1 =
          { s with currentColorIndex := (s.currentColorIndex + 1) % 6,
                   lastColorChangeTime := t } := by
        rw [getCurrentColor_fst, if_pos ha]
      simp only [colorRun]
      have hlt : (getCurrentColor s t).1.currentColorIndex < 6 := by
        rw [hs]
        exact Nat.mod_lt _ (by decide)
      have h5 : advances (getCurrentColor s t).1 ts = 5 := by omega
      rw [colorRun_index_aux ts _ hlt, h5, hs]
      simp only
      omega
    · rw [if_neg ha] at hadv
      omega

/-- C15 (colour cycle step).  For every state and time `now`, `getCurrentColor`
sets `currentColorIndex` to `(currentColorIndex + 1) mod 6` and
`lastColorChangeTime` to `now` when `now - lastColorChangeTime` is strictly
greater than `colorChangeInterval`, leaves the state unchanged otherwise, and
returns the palette entry at the resulting index; six consecutive advancing
calls lead to the index `currentColorIndex mod 6`, which is the starting value
whenever that is below 6. -/
theorem colour_cycle_step (s : GridEffect) (now : Int) :
    (now - s.lastColorChangeTime > s.colorChangeInterval →
      (getCurrentColor s now).1 =
        { s with currentColorIndex := (s.currentColorIndex + 1) % 6,
                 lastColorChangeTime := now }) ∧
    (¬ now - s.lastColorChangeTime > s.colorChangeInterval →
      (getCurrentColor s now).1 = s) ∧
    (getCurrentColor s now).2 =
      neonColors.get? (getCurrentColor s now).1.currentColorIndex ∧
    (∀ ts : List Int, ts.length = 6 → advances s ts = 6 →
      (colorRun s ts).currentColorIndex = s.currentColorIndex % 6) ∧
    (s.currentColorIndex < 6 → ∀ ts : List Int, ts.length = 6 → advances s ts = 6 →
      (colorRun s ts).currentColorIndex = s.currentColorIndex) := by
  refine ⟨?_, ?_, rfl, colorRun_six s, ?_⟩
  · intro h
    rw [getCurrentColor_fst, if_pos h]
  · intro h
    rw [getCurrentColor_fst, if_neg h]
  · intro hlt ts hlen hadv
    rw [colorRun_six s ts hlen hadv, Nat.mod_eq_of_lt hlt]

/-- C15, at a concrete input: six advancing calls after a change at time 0, and
a call at exactly the interval, which does not advance. -/
theorem colour_cycle_step_witness :
    (20001 - (fields shippedOptions 0 0).lastColorChangeTime >
      (fields shippedOptions 0 0).colorChangeInterval) ∧
    (getCurrentColor (fields shippedOptions 0 0) 20001).1.currentColorIndex = 1 ∧
    (getCurrentColor (fields shippedOptions 0 0) 20001).2 = some "#00FFFF" ∧
    ¬ (20000 - (fields shippedOptions 0 0).lastColorChangeTime >
      (fields shippedOptions 0 0).colorChangeInterval) ∧
    (getCurrentColor (fields shippedOptions 0 0) 20000).1 = fields shippedOptions 0 0 ∧
    (fields shippedOptions 0 0).currentColorIndex < 6 ∧
    [20001, 40002, 60003, 80004, 100005, 120006].length = 6 ∧
    advances (fields shippedOptions 0 0)
      [20001, 40002, 60003, 80004, 100005, 120006] = 6 ∧
    (colorRun (fields shippedOptions 0 0)
      [20001, 40002, 60003, 80004, 100005, 120006]).currentColorIndex =
      (fields shippedOptions 0 0).currentColorIndex :=
  ⟨by decide,
    congrArg GridEffect.currentColorIndex
      ((colour_cycle_step (fields shippedOptions 0 0) 20001).1 (by decide)),
    by decide, by decide,
    (colour_cycle_step (fields shippedOptions 0 0) 20000).2.1 (by decide),
    by decide, by decide, by decide,
    (colour_cycle_step (fields shippedOptions 0 0) 20000).2.2.2.2 (by decide) _
      (by decide) (by decide)⟩

/-! ## The colour index stays in range -/

theorem colorRun_index_lt : ∀ (ts : List Int) (s : GridEffect), s.currentColorIndex < 6 →
    (colorRun s ts).currentColorIndex < 6 := by
  intro ts
  induction ts with
  | nil => intro s h; exact h
  | cons t ts ih =>
    intro s h
    exact ih _ (getCurrentColor_index_lt s t h)

theorem getCurrentColor_others (s : GridEffect) (now : Int) :
    (getCurrentColor s now).1 =
      { s with currentColorIndex := (getCurrentColor s now).1.currentColorIndex,
               lastColorChangeTime := (getCurrentColor s now).1.lastColorChangeTime } := by
  rw [getCurrentColor_fst]
  split <;> rfl

theorem checkResetPoints_others (s : GridEffect) (now : Int) :
    checkResetPoints s now =
      { s with activatedPoints := (checkResetPoints s now).activatedPoints,
               lastResetTime := (checkResetPoints s now).lastResetTime } := by
  unfold checkResetPoints
  split
  · rfl
  · split <;> rfl

theorem activatePointsInBrushArea_others (s : GridEffect) :
    activatePointsInBrushArea s =
      { s with activatedPoints := (activatePointsInBrushArea s).activatedPoints } := by
  unfold activatePointsInBrushArea
  split <;> rfl

theorem onMouseMove_others (s : GridEffect) (mx my : Int) :
    onMouseMove s mx my =
      { s with prevMouse := { x := s.mouse.x, y := s.mouse.y },
               mouse := { x := mx, y := my },
               activatedPoints := (onMouseMove s mx my).activatedPoints } := by
  unfold onMouseMove
  by_cases hI : s.isInteractive = true
  · simp only [hI, if_true]
    exact activatePointsInBrushArea_others _
  · simp [hI]

theorem resize_others (s s1 : GridEffect) (w : Window) (h : resize s w = some s1) :
    s1 = { s with canvasWidth := canvasDimension w.innerWidth 300,
                  canvasHeight := canvasDimension w.innerHeight 150,
                  points := s1.points, activatedPoints := [] } := by
  unfold resize at h
  simp only at h
  cases hc : createPoints (canvasDimension w.innerWidth 300)
      (canvasDimension w.innerHeight 150) s.spacing s.navHeight with
  | none => rw [hc] at h; cases h
  | some pts =>
    rw [hc] at h
    cases h
    rfl

theorem measureNav_others (s : GridEffect) (w : Window) :
    measureNav s w = { s with navHeight := (measureNav s w).navHeight } := by
  unfold measureNav
  cases w.topNav <;> rfl

theorem onResize_others (s s1 : GridEffect) (w : Window) (h : onResize s w = some s1) :
    s1 = { s with canvasWidth := canvasDimension w.innerWidth 300,
                  canvasHeight := canvasDimension w.innerHeight 150,
                  navHeight := s1.navHeight, points := s1.points,
                  activatedPoints := [] } := by
  have h1 := resize_others (measureNav s w) s1 w h
  have h2 := measureNav_others s w
  have h3 : s1.navHeight = (measureNav s w).navHeight :=
    (resize_eq_some (measureNav s w) s1 w h).2.2.2.2.1
  rw [h3]
  rw [h2] at h1
  exact h1

theorem animate_others (s : GridEffect) (nowReset nowColor : Int) :
    (animate s nowReset nowColor).1 =
      { s with activatedPoints := (animate s nowReset nowColor).1.activatedPoints,
               lastResetTime := (animate s nowReset nowColor).1.lastResetTime,
               currentColorIndex := (animate s nowReset nowColor).1.currentColorIndex,
               lastColorChangeTime :=
                 (animate s nowReset nowColor).1.lastColorChangeTime } := by
  rw [animate_fst, getCurrentColor_fst]
  unfold checkResetPoints
  split_ifs <;> rfl

theorem animate_index_lt (s : GridEffect) (nowReset nowColor : Int)
    (h : s.currentColorIndex < 6) : (animate s nowReset nowColor).1.currentColorIndex < 6 := by
  rw [animate_fst]
  apply getCurrentColor_index_lt
  split
  · rw [checkResetPoints_others]
    exact h
  · exact h

theorem step_index_lt (s s1 : GridEffect) (e : Event) (hs : s.currentColorIndex < 6)
    (h : step s e = some s1) : s1.currentColorIndex < 6 := by
  cases e with
  | resize w =>
    rw [onResize_others s s1 w h]
    exact hs
  | mouseMove x y =>
    simp only [step, Option.some.injEq] at h
    subst h
    rw [onMouseMove_others]
    exact hs
  | frame r c hd =>
    simp only [step, Option.some.injEq] at h
    subst h
    rw [tick_eq]
    exact animate_index_lt s r c hs
  | setInteractive b =>
    simp only [step, Option.some.injEq] at h
    subst h
    cases b <;> exact hs
  | destroy =>
    simp only [step, Option.some.injEq] at h
    subst h
    exact hs

theorem reachable_index_lt (s : GridEffect) (h : Reachable s) : s.currentColorIndex < 6 := by
  induction h with
  | construct options w nowColor nowReset frameReset frameColor handle s hc =>
    obtain ⟨s1, hr, rfl⟩ := construct_eq_some _ _ _ _ _ _ _ _ hc
    rw [tick_eq]
    show (animate s1 frameReset frameColor).1.currentColorIndex < 6
    apply animate_index_lt
    rw [resize_others _ s1 w hr]
    show (measureNav (fields options nowColor nowReset) w).currentColorIndex < 6
    rw [measureNav_others]
    exact (by decide : (0 : Nat) < 6)
  | step s s1 e _ hstep ih => exact step_index_lt s s1 e ih hstep

theorem neonColors_get? (i : Nat) (h : i < 6) : ∃ c ∈ neonColors, neonColors.get? i = some c := by
  have hl : i < neonColors.length := h
  exact ⟨neonColors.get ⟨i, hl⟩, List.get_mem _ _ _, List.get?_eq_get hl⟩

/-- C20 (the colour index stays in range).  In every reachable state
`currentColorIndex < 6`; it stays below 6 along every sequence of timestamps
at which `getCurrentColor` is called, and every call returns one of the six
palette entries. -/
theorem reachable_colour_in_range (s : GridEffect) (h : Reachable s) :
    s.currentColorIndex < 6 ∧
    (∀ ts : List Int, (colorRun s ts).currentColorIndex < 6) ∧
    (∀ (ts : List Int) (now : Int),
      ∃ c ∈ neonColors, (getCurrentColor (colorRun s ts) now).2 = some c) := by
  have h0 := reachable_index_lt s h
  refine ⟨h0, fun ts => colorRun_index_lt ts s h0, ?_⟩
  intro ts now
  exact neonColors_get? _ (getCurrentColor_index_lt _ now (colorRun_index_lt ts s h0))

/-- C20, at a concrete input: the reachable state `demoActive`. -/
theorem reachable_colour_in_range_witness :
    Reachable demoActive ∧ demoActive.currentColorIndex < 6 ∧
    (∀ ts : List Int, (colorRun demoActive ts).currentColorIndex < 6) ∧
    (∀ (ts : List Int) (now : Int),
      ∃ c ∈ neonColors, (getCurrentColor (colorRun demoActive ts) now).2 = some c) :=
  ⟨reachable_demoActive, reachable_colour_in_range demoActive reachable_demoActive⟩

/-! ## Interactivity off implies an empty ActivatedSet -/

theorem reachable_demoOff : Reachable demoOff :=
  Reachable.step demoActive demoOff (Event.setInteractive false) reachable_demoActive rfl

/-- C19 (implicit invariant).  In every state reachable from construction
through resize, pointer-move, frame, `setInteractive` and `destroy`
operations, an interactivity flag that is off comes with an empty
ActivatedSet. -/
theorem reachable_interactive_off (s : GridEffect) (h : Reachable s)
    (hI : s.isInteractive = false) : s.activatedPoints = [] :=
  reachable_off_empty s h hI

/-- C19, at a concrete input: `demoOff`, reached by switching off the instance
`demoActive`, whose ActivatedSet was not empty. -/
theorem reachable_interactive_off_witness :
    Reachable demoOff ∧ demoOff.isInteractive = false ∧
    demoActive.activatedPoints ≠ [] ∧ demoOff.activatedPoints = [] :=
  ⟨reachable_demoOff, rfl, List.ne_nil_of_mem demoActive_mem,
    reachable_interactive_off demoOff reachable_demoOff rfl⟩

/-! ## What a resize leaves alone -/

/-- C18 (resize frame condition).  Whenever `onResize` returns (always, unless
`createPoints` loops forever), the new state differs from the old one at most
in the canvas size, `navHeight`, the point list and the ActivatedSet: the
colour cycle, the interactivity flag, the reset timer and the pointer fields
are unchanged.  The same holds for `resize`, which also keeps `navHeight`. -/
theorem onResize_frame_condition (s : GridEffect) (w : Window)
    (h : ¬ loopsForever s.spacing w.innerHeight) :
    (∃ s1, onResize s w = some s1 ∧
      s1.currentColorIndex = s.currentColorIndex ∧
      s1.lastColorChangeTime = s.lastColorChangeTime ∧
      s1.colorChangeInterval = s.colorChangeInterval ∧
      s1.isInteractive = s.isInteractive ∧
      s1.resetInterval = s.resetInterval ∧ s1.lastResetTime = s.lastResetTime ∧
      s1.mouse = s.mouse ∧ s1.prevMouse = s.prevMouse ∧
      s1 = { s with canvasWidth := s1.canvasWidth, canvasHeight := s1.canvasHeight,
                    navHeight := s1.navHeight, points := s1.points,
                    activatedPoints := s1.activatedPoints }) ∧
    (∀ s2, resize s w = some s2 →
      s2 = { s with canvasWidth := s2.canvasWidth, canvasHeight := s2.canvasHeight,
                    points := s2.points, activatedPoints := s2.activatedPoints }) := by
  constructor
  · cases hr : onResize s w with
    | none =>
      exact absurd ((onResize_eq_none_iff s w).mp hr)
        (not_loopsForever_canvasDimension _ _ h)
    | some s1 =>
      have ho := onResize_others s s1 w hr
      refine ⟨s1, rfl, ?_, ?_, ?_, ?_, ?_, ?_, ?_, ?_, ?_⟩
      · rw [ho]
      · rw [ho]
      · rw [ho]
      · rw [ho]
      · rw [ho]
      · rw [ho]
      · rw [ho]
      · rw [ho]
      · have e1 : s1.canvasWidth = canvasDimension w.innerWidth 300 := by rw [ho]
        have e2 : s1.canvasHeight = canvasDimension w.innerHeight 150 := by rw [ho]
        have e3 : s1.activatedPoints = [] := by rw [ho]
        rw [e1, e2, e3]
        exact ho
  · intro s2 hr
    have ho := resize_others s s2 w hr
    have e1 : s2.canvasWidth = canvasDimension w.innerWidth 300 := by rw [ho]
    have e2 : s2.canvasHeight = canvasDimension w.innerHeight 150 := by rw [ho]
    have e3 : s2.activatedPoints = [] := by rw [ho]
    rw [e1, e2, e3]
    exact ho

/-- C18, at a concrete input: `demoActive` resized to 200 by 50 under a header 40
high. -/
theorem onResize_frame_condition_witness :
    ¬ loopsForever demoActive.spacing 50 ∧
    ∃ s1, onResize demoActive ⟨200, 50, some 40⟩ = some s1 ∧
      s1.currentColorIndex = demoActive.currentColorIndex ∧
      s1.lastColorChangeTime = demoActive.lastColorChangeTime ∧
      s1.colorChangeInterval = demoActive.colorChangeInterval ∧
      s1.isInteractive = demoActive.isInteractive ∧
      s1.resetInterval = demoActive.resetInterval ∧
      s1.lastResetTime = demoActive.lastResetTime ∧
      s1.mouse = demoActive.mouse ∧ s1.prevMouse = demoActive.prevMouse ∧
      s1 = { demoActive with
               canvasWidth := s1.canvasWidth, canvasHeight := s1.canvasHeight,
               navHeight := s1.navHeight, points := s1.points,
               activatedPoints := s1.activatedPoints } :=
  ⟨demoState_not_loopsForever 50,
    (onResize_frame_condition demoActive ⟨200, 50, some 40⟩
      (demoState_not_loopsForever 50)).1⟩

/-! ## Rendering -/

theorem animate_snd (s : GridEffect) (nowReset nowColor : Int) :
    (animate s nowReset nowColor).2 =
      drawPoints (animate s nowReset nowColor).1
        (getCurrentColor (if s.isInteractive then checkResetPoints s nowReset else s)
          nowColor).2
        (animate s nowReset nowColor).1.points := rfl

theorem drawPoints_of_nonneg (s : GridEffect) (currentColor : Option String)
    (h : 0 ≤ s.radius) : ∀ pts : List Point,
    drawPoints s currentColor pts =
      some (pts.map (fun p =>
        { cx := (p.x : ℚ) + 1 / 2,
          cy := (p.y : ℚ) + 1 / 2,
          radius := s.radius,
          fillStyle := if p.id ∈ s.activatedPoints then currentColor
                       else some s.pointColor })) := by
  intro pts
  induction pts with
  | nil => rfl
  | cons p pts ih =>
    have hn : ¬ s.radius < 0 := not_lt.mpr h
    simp only [drawPoints, drawPoint, hn, if_false, ih, List.map_cons, mathRound_intCast]

theorem drawPoints_of_neg (s : GridEffect) (currentColor : Option String)
    (h : s.radius < 0) (p : Point) (pts : List Point) :
    drawPoints s currentColor (p :: pts) = none := by
  simp only [drawPoints, drawPoint, h, if_true]

theorem animate_radius_points (s : GridEffect) (nowReset nowColor : Int) :
    (animate s nowReset nowColor).1.radius = s.radius ∧
    (animate s nowReset nowColor).1.points = s.points ∧
    (animate s nowReset nowColor).1.pointColor = s.pointColor ∧
    (animate s nowReset nowColor).1.animationId = s.animationId := by
  have ho := animate_others s nowReset nowColor
  refine ⟨?_, ?_, ?_, ?_⟩ <;> rw [ho]

theorem animate_throws_iff (s : GridEffect) (nowReset nowColor : Int) :
    (animate s nowReset nowColor).2 = none ↔ s.radius < 0 ∧ s.points ≠ [] := by
  obtain ⟨hr, hp, -, -⟩ := animate_radius_points s nowReset nowColor
  rw [animate_snd, hp]
  by_cases h : s.radius < 0
  · cases hpts : s.points with
    | nil => simp [drawPoints]
    | cons p pts =>
      rw [drawPoints_of_neg _ _ (by rw [hr]; exact h)]
      simp [h]
  · rw [drawPoints_of_nonneg _ _ (by rw [hr]; exact not_lt.mp h)]
    simp [h]

theorem tick_of_throws (s : GridEffect) (nowReset nowColor : Int) (handle : Nat)
    (h : (animate s nowReset nowColor).2 = none) :
    tick s nowReset nowColor handle = (animate s nowReset nowColor).1 := by
  unfold tick
  rw [h]

theorem tick_of_returns (s : GridEffect) (nowReset nowColor : Int) (handle : Nat)
    (h : (animate s nowReset nowColor).2 ≠ none) :
    tick s nowReset nowColor handle =
      { (animate s nowReset nowColor).1 with animationId := some handle } := by
  unfold tick
  cases hs : (animate s nowReset nowColor).2 with
  | none => exact absurd hs h
  | some fills => rfl

theorem resize_on_demoWindow (options : Options) (nowColor nowReset : Int)
    (hsp : orNumber options.spacing 10 = ((15 : Int) : ℚ)) :
    resize (measureNav (fields options nowColor nowReset) demoWindow) demoWindow =
      some { measureNav (fields options nowColor nowReset) demoWindow with
             canvasWidth := 100, canvasHeight := 100,
             points := lattice 7 7 15 30, activatedPoints := [] } := by
  have hcp : createPoints 100 100 ((15 : Int) : ℚ) 30 = some (lattice 7 7 15 30) := by
    rw [createPoints_of_pos 100 100 15 30 (by decide)]
    rfl
  have e1 : (measureNav (fields options nowColor nowReset) demoWindow).spacing =
      ((15 : Int) : ℚ) := hsp
  have e2 : (measureNav (fields options nowColor nowReset) demoWindow).navHeight = 30 := rfl
  have hc : createPoints (canvasDimension demoWindow.innerWidth 300)
      (canvasDimension demoWindow.innerHeight 150)
      (measureNav (fields options nowColor nowReset) demoWindow).spacing
      (measureNav (fields options nowColor nowReset) demoWindow).navHeight =
        some (lattice 7 7 15 30) := by
    rw [e1, e2]
    exact hcp
  simp only [resize, hc]
  rfl

theorem negativeOptions_spacing : orNumber negativeOptions.spacing 10 = ((15 : Int) : ℚ) := by
  simp [negativeOptions, shippedOptions, orNumber]

theorem construct_demoThrown :
    construct negativeOptions demoWindow 0 0 16 16 1 = some demoThrown := by
  unfold construct init
  rw [resize_on_demoWindow negativeOptions 0 0 negativeOptions_spacing]
  rfl

theorem demoThrown_radius : demoThrown.radius = -1 := by
  have h : demoThrown.radius = orNumber negativeOptions.pointSize 1 := by
    unfold demoThrown
    rw [tick_eq]
    exact (animate_radius_points _ 16 16).1
  rw [h]
  simp [negativeOptions, orNumber]

theorem demoThrown_points : demoThrown.points = lattice 7 7 15 30 := by
  unfold demoThrown
  exact (tick_frame _ 16 16 1).1

/-- C17, refuted as stated: the object constructed with `pointSize: -1` on
`demoWindow` has a field of 35 points and the radius -1; `ctx.arc` throws at
the first point of every frame, so a frame fills no circle, and the first
frame, drawn by the constructor, left `animationId` at `null`. -/
theorem negative_radius_counterexample :
    construct negativeOptions demoWindow 0 0 16 16 1 = some demoThrown ∧
    demoThrown.radius = -1 ∧ demoThrown.points.length = 35 ∧
    (animate demoThrown 32 32).2 = none ∧ demoThrown.animationId = none := by
  have hneg : demoThrown.radius < 0 := by rw [demoThrown_radius]; norm_num
  have hpts : demoThrown.points ≠ [] := by rw [demoThrown_points]; decide
  refine ⟨construct_demoThrown, demoThrown_radius, ?_,
    (animate_throws_iff demoThrown 32 32).mpr ⟨hneg, hpts⟩, ?_⟩
  · rw [demoThrown_points]; decide
  · unfold demoThrown
    rw [tick_of_throws]
    · exact (animate_radius_points _ 16 16).2.2.2
    · rw [animate_throws_iff]
      constructor
      · show orNumber negativeOptions.pointSize 1 < 0
        simp [negativeOptions, orNumber]
      · show lattice 7 7 15 30 ≠ []
        decide

/-- C17, amended.  A frame throws exactly when the configured radius is negative
and the field is not empty.  Otherwise it fills exactly one circle per point
of the field, in the field's stored order, centred at `(p.x + 0.5, p.y + 0.5)`
with the configured radius; the fill colour is the value that
`getCurrentColor` returns in that frame when `p.id` is in the ActivatedSet (as
the frame's reset check leaves it), and the configured `pointColor`
otherwise. -/
theorem animate_renders (s : GridEffect) (nowReset nowColor : Int)
    (h : 0 ≤ s.radius ∨ s.points = []) :
    (animate s nowReset nowColor).2 =
      some (s.points.map (fun p =>
        { cx := (p.x : ℚ) + 1 / 2,
          cy := (p.y : ℚ) + 1 / 2,
          radius := s.radius,
          fillStyle :=
            if p.id ∈ (animate s nowReset nowColor).1.activatedPoints then
              (getCurrentColor (if s.isInteractive then checkResetPoints s nowReset else s)
                nowColor).2
            else some s.pointColor })) ∧
    (∀ fills, (animate s nowReset nowColor).2 = some fills →
      fills.length = s.points.length) ∧
    (animate s nowReset nowColor).1.activatedPoints =
      (if s.isInteractive then checkResetPoints s nowReset else s).activatedPoints ∧
    ((animate s nowReset nowColor).2 = none ↔ s.radius < 0 ∧ s.points ≠ []) := by
  obtain ⟨hr, hp, hc, -⟩ := animate_radius_points s nowReset nowColor
  have h1 : (animate s nowReset nowColor).2 =
      some (s.points.map (fun p =>
        { cx := (p.x : ℚ) + 1 / 2,
          cy := (p.y : ℚ) + 1 / 2,
          radius := s.radius,
          fillStyle :=
            if p.id ∈ (animate s nowReset nowColor).1.activatedPoints then
              (getCurrentColor (if s.isInteractive then checkResetPoints s nowReset else s)
                nowColor).2
            else some s.pointColor })) := by
    rw [animate_snd, hp]
    rcases h with h | h
    · rw [drawPoints_of_nonneg _ _ (by rw [hr]; exact h), hr, hc]
    · rw [h]
      rfl
  refine ⟨h1, ?_, animate_activatedPoints s nowReset nowColor,
    animate_throws_iff s nowReset nowColor⟩
  intro fills hf
  rw [h1, Option.some.injEq] at hf
  rw [← hf, List.length_map]

/-- C17 amended, at a concrete input: a frame of `demoActive`, whose radius is 1
and whose field has 35 points. -/
theorem animate_renders_witness :
    (0 ≤ demoActive.radius ∨ demoActive.points = []) ∧
    ∃ fills, (animate demoActive 32 32).2 = some fills ∧ fills.length = 35 :=
  have h : 0 ≤ demoActive.radius ∨ demoActive.points = [] := Or.inl (by decide)
  ⟨h, _, (animate_renders demoActive 32 32 h).1, by
    rw [List.length_map]
    decide⟩

/-! ## Row-major order -/

theorem pairwise_product_lex : ∀ (l₁ l₂ : List Nat), l₁.Pairwise (· < ·) → l₂.Pairwise (· < ·) →
    (l₁ ×ˢ l₂).Pairwise (fun a b => a.1 < b.1 ∨ (a.1 = b.1 ∧ a.2 < b.2)) := by
  intro l₁
  induction l₁ with
  | nil => intro l₂ _ _; simp
  | cons a l ih =>
    intro l₂ h1 h2
    rw [List.pairwise_cons] at h1
    rw [List.product_cons, List.pairwise_append]
    refine ⟨?_, ih l₂ h1.2 h2, ?_⟩
    · rw [List.pairwise_map]
      exact h2.imp (fun h => Or.inr ⟨rfl, h⟩)
    · intro x hx y hy
      obtain ⟨b, -, rfl⟩ := List.mem_map.mp hx
      obtain ⟨i, j⟩ := y
      have hi : i ∈ l := (List.mem_product.mp hy).1
      exact Or.inl (h1.1 i hi)

theorem pairwise_lattice (rows cols : Nat) (spacing navHeight : Int) (hS : 0 < spacing) :
    (lattice rows cols spacing navHeight).Pairwise rowMajorLt := by
  unfold lattice
  rw [List.pairwise_map]
  apply List.Pairwise.filter
  refine (pairwise_product_lex _ _ (List.pairwise_lt_range rows)
    (List.pairwise_lt_range cols)).imp ?_
  rintro ⟨i, j⟩ ⟨i2, j2⟩ h
  simp only [rowMajorLt, latticePoint]
  rcases h with h | ⟨h1, h2⟩
  · left
    have : (i : Int) < (i2 : Int) := by exact_mod_cast h
    exact mul_lt_mul_of_pos_right this hS
  · right
    simp only at h1 h2
    subst h1
    refine ⟨rfl, ?_⟩
    have : (j : Int) < (j2 : Int) := by exact_mod_cast h2
    exact mul_lt_mul_of_pos_right this hS

/-- C16 (row-major order).  For every `W`, `H`, margin `M` and spacing field
whose rounded value `S` is an integer `≥ 1`, the list that `createPoints`
returns is strictly increasing in the lexicographic order on `(y, x)`: rows
from top to bottom, and within a row from left to right. -/
theorem createPoints_row_major (W H : Nat) (spacingField : ℚ) (S M : Int)
    (hR : mathRound spacingField = S) (hS : 1 ≤ S) :
    ∃ pts : List Point, createPoints W H spacingField M = some pts ∧
      pts.Pairwise (fun p q => p.y < q.y ∨ (p.y = q.y ∧ p.x < q.x)) :=
  ⟨_, createPoints_of_round W H spacingField S M hR hS,
    pairwise_lattice _ _ S M (by omega)⟩

/-- C16, at a concrete input: a 70 by 40 canvas with spacing 20 and margin 15. -/
theorem createPoints_row_major_witness :
    mathRound ((20 : Int) : ℚ) = 20 ∧ (1 : Int) ≤ 20 ∧
    ∃ pts : List Point, createPoints 70 40 ((20 : Int) : ℚ) 15 = some pts ∧
      pts.Pairwise (fun p q => p.y < q.y ∨ (p.y = q.y ∧ p.x < q.x)) :=
  ⟨mathRound_intCast 20, by decide,
    createPoints_row_major 70 40 _ 20 15 (mathRound_intCast 20) (by decide)⟩

/-! ## Teardown on the page -/

theorem filter_ref_ne_of_not_mem (doc : List Element) (ref : Nat)
    (h : ref ∉ doc.map Element.ref) :
    doc.filter (fun e => decide (e.ref ≠ ref)) = doc := by
  rw [List.filter_eq_self]
  intro e he
  simp only [ne_eq, decide_eq_true_eq]
  intro heq
  exact h (List.mem_map.mpr ⟨e, he, heq⟩)

theorem Page.destroy_eq (pg : Page) (self : Nat) (inst : Instance)
    (h : pg.objects.get? self = some inst) :
    pg.destroy self =
      { existingGridEffect := pg.existingGridEffect,
        listeners := (pg.listeners.filter (fun l => decide (l ≠ .resizeHandler self))).filter
          (fun l => decide (l ≠ .mouseMoveHandler self)),
        frames := framesAfterCancel inst.fields.animationId pg.frames,
        lastHandle := pg.lastHandle,
        document := pg.document.filter (fun e => decide (e.ref ≠ inst.canvas)),
        objects := pg.objects.set self { inst with fields := inst.fields.destroy } } := by
  unfold Page.destroy
  rw [h]
  simp only [Page.removeEventListener, Page.removeNode, Page.cancelAnimationFrame,
    framesAfterCancel]
  by_cases hc : inst.canvas ∈ pg.document.map Element.ref
  · cases ha : inst.fields.animationId with
    | none => simp [hc]
    | some a =>
      by_cases h0 : a = 0
      · simp [hc, h0]
      · simp [hc, h0]
  · have hf : pg.document.filter (fun e => !decide (e.ref = inst.canvas)) = pg.document := by
      simpa using filter_ref_ne_of_not_mem pg.document inst.canvas hc
    cases ha : inst.fields.animationId with
    | none => simp [hc, hf]
    | some a =>
      by_cases h0 : a = 0
      · simp [hc, h0, hf]
      · simp [hc, h0, hf]

theorem Page.destroy_of_none (pg : Page) (self : Nat) (h : pg.objects.get? self = none) :
    pg.destroy self = pg := by
  unfold Page.destroy
  rw [h]

theorem framesAfterCancel_idem (a : Option Nat) (frames : List FrameRequest) :
    framesAfterCancel a (framesAfterCancel a frames) = framesAfterCancel a frames := by
  unfold framesAfterCancel
  cases a with
  | none => rfl
  | some h =>
    by_cases h0 : h = 0
    · simp [h0]
    · simp [h0, List.filter_filter]

theorem destroy_idem (s : GridEffect) : s.destroy.destroy = s.destroy := rfl

/-! ## The invariant of the page -/

theorem SameIdentity.refl (objs : List Instance) : SameIdentity objs objs :=
  ⟨rfl, fun _ inst h => ⟨inst, h, rfl, rfl⟩⟩

theorem SameIdentity.trans {a b c : List Instance} (h1 : SameIdentity a b)
    (h2 : SameIdentity b c) : SameIdentity a c := by
  refine ⟨h2.1.trans h1.1, ?_⟩
  intro r inst h
  obtain ⟨i1, g1, c1, a1⟩ := h1.2 r inst h
  obtain ⟨i2, g2, c2, a2⟩ := h2.2 r i1 g1
  exact ⟨i2, g2, c2.trans c1, a2.trans a1⟩

theorem SameIdentity.set (objs : List Instance) (r : Nat) (inst inst1 : Instance)
    (h : objs.get? r = some inst) (hc : inst1.canvas = inst.canvas)
    (ha : inst1.fields.animationId = inst.fields.animationId) :
    SameIdentity objs (objs.set r inst1) := by
  refine ⟨List.length_set _ _ _, ?_⟩
  intro k j hk
  by_cases hkr : r = k
  · subst hkr
    rw [h] at hk
    cases hk
    refine ⟨inst1, ?_, hc, ha⟩
    rw [List.get?_eq_getElem?] at h ⊢
    rw [List.getElem?_set_self', h]
    rfl
  · refine ⟨j, ?_, rfl, rfl⟩
    rw [List.get?_eq_getElem?] at hk ⊢
    rw [List.getElem?_set_ne hkr]
    exact hk

theorem PageInv.shrink (pg pg1 : Page) (h : PageInv pg)
    (hh : pg1.existingGridEffect = pg.existingGridEffect)
    (hf : ∀ f ∈ pg1.frames, f ∈ pg.frames)
    (hl : ∀ l ∈ pg1.listeners, l ∈ pg.listeners)
    (hd : ∀ e ∈ pg1.document, e ∈ pg.document)
    (ho : SameIdentity pg.objects pg1.objects) : PageInv pg1 := by
  refine ⟨?_, ?_, ?_, ?_⟩
  · intro r hr
    rw [hh] at hr
    rw [ho.1]
    exact h.handle_lt r hr
  · intro f hfm
    obtain ⟨h1, h2, inst, h3, h4⟩ := h.frames_live f (hf f hfm)
    obtain ⟨inst1, g1, -, a1⟩ := ho.2 _ inst h3
    exact ⟨hh.trans h1, h2, inst1, g1, a1.trans h4⟩
  · intro l hlm
    exact hh.trans (h.listeners_live l (hl l hlm))
  · intro e he hid
    obtain ⟨r, inst, h1, h2, h3⟩ := h.canvas_live e (hd e he) hid
    obtain ⟨inst1, g1, c1, -⟩ := ho.2 _ inst h2
    exact ⟨r, inst1, hh.trans h1, g1, c1.trans h3⟩

theorem mem_framesAfterCancel (a : Option Nat) (frames : List FrameRequest)
    (f : FrameRequest) (h : f ∈ framesAfterCancel a frames) :
    f ∈ frames ∧ (a = some f.handle → f.handle = 0) := by
  unfold framesAfterCancel at h
  cases a with
  | none => exact ⟨h, fun e => by cases e⟩
  | some k =>
    by_cases h0 : k = 0
    · simp only [h0, ne_eq, not_true_eq_false, if_false] at h
      refine ⟨h, ?_⟩
      intro e
      cases e
      exact h0
    · simp only [ne_eq, h0, not_false_eq_true, if_true, List.mem_filter,
        decide_eq_true_eq] at h
      refine ⟨h.1, ?_⟩
      intro e
      cases e
      exact absurd rfl h.2

theorem PageInv.destroy (pg : Page) (self : Nat) (h : PageInv pg) :
    PageInv (pg.destroy self) := by
  cases hg : pg.objects.get? self with
  | none => rw [Page.destroy_of_none pg self hg]; exact h
  | some inst =>
    rw [Page.destroy_eq pg self inst hg]
    refine PageInv.shrink pg _ h ?_ ?_ ?_ ?_ ?_
    · rfl
    · intro f hf
      exact (mem_framesAfterCancel _ _ f hf).1
    · intro l hl
      exact (List.mem_filter.mp (List.mem_filter.mp hl).1).1
    · intro e he
      exact (List.mem_filter.mp he).1
    · exact SameIdentity.set _ _ inst _ hg rfl rfl

theorem dispatchResize_sameIdentity (w : Window) :
    ∀ (ls : List Handler) (objs objs1 : List Instance),
    Page.dispatchResize w ls objs = some objs1 → SameIdentity objs objs1 := by
  intro ls
  induction ls with
  | nil =>
    intro objs objs1 h
    simp only [Page.dispatchResize, Option.some.injEq] at h
    subst h
    exact SameIdentity.refl _
  | cons l ls ih =>
    intro objs objs1 h
    cases l with
    | mouseMoveHandler o =>
      simp only [Page.dispatchResize] at h
      exact ih objs objs1 h
    | resizeHandler o =>
      cases hg : objs.get? o with
      | none =>
        simp only [Page.dispatchResize, hg] at h
        exact ih objs objs1 h
      | some inst =>
        cases hr : inst.fields.onResize w with
        | none =>
          have h2 : Page.dispatchResize w (.resizeHandler o :: ls) objs = none := by
            simp only [Page.dispatchResize, hg, hr]
          rw [h2] at h
          cases h
        | some s1 =>
          simp only [Page.dispatchResize, hg, hr] at h
          have ha : s1.animationId = inst.fields.animationId := by
            rw [onResize_others inst.fields s1 w hr]
          exact (SameIdentity.set objs o inst { inst with fields := s1 } hg rfl ha).trans
            (ih _ objs1 h)

theorem dispatchMouseMove_sameIdentity (x y : Int) :
    ∀ (ls : List Handler) (objs : List Instance),
    SameIdentity objs (Page.dispatchMouseMove x y ls objs) := by
  intro ls
  induction ls with
  | nil => intro objs; exact SameIdentity.refl _
  | cons l ls ih =>
    intro objs
    cases l with
    | resizeHandler o =>
      simp only [Page.dispatchMouseMove]
      exact ih objs
    | mouseMoveHandler o =>
      cases hg : objs.get? o with
      | none =>
        simp only [Page.dispatchMouseMove, hg]
        exact ih objs
      | some inst =>
        simp only [Page.dispatchMouseMove, hg]
        have ha : (inst.fields.onMouseMove x y).animationId = inst.fields.animationId := by
          rw [onMouseMove_others]
        exact (SameIdentity.set objs o inst
          { inst with fields := inst.fields.onMouseMove x y } hg rfl ha).trans (ih _)

theorem get?_set_self_of_get? (objs : List Instance) (k : Nat) (inst a : Instance)
    (h : objs.get? k = some inst) : (objs.set k a).get? k = some a := by
  rw [List.get?_eq_getElem?] at h ⊢
  rw [List.getElem?_set_self', h]
  rfl

theorem get?_set_of_ne (objs : List Instance) (k r : Nat) (a : Instance) (h : k ≠ r) :
    (objs.set k a).get? r = objs.get? r := by
  rw [List.get?_eq_getElem?, List.get?_eq_getElem?, List.getElem?_set_ne h]

theorem get?_of_lt (objs : List Instance) (k : Nat) (h : k < objs.length) :
    ∃ inst, objs.get? k = some inst :=
  ⟨objs.get ⟨k, h⟩, List.get?_eq_get h⟩

theorem Page.destroyExisting_released (pg : Page) (h : PageInv pg) :
    pg.destroyExisting.frames = [] ∧ pg.destroyExisting.listeners = [] ∧
    (∀ e ∈ pg.destroyExisting.document, e.id ≠ "grid-canvas") ∧
    pg.destroyExisting.objects.length = pg.objects.length ∧
    pg.destroyExisting.lastHandle = pg.lastHandle ∧
    (∀ first inst0, pg.existingGridEffect = some first →
      pg.objects.get? first = some inst0 →
      pg.destroyExisting.objects.get? first =
        some { inst0 with fields := inst0.fields.destroy }) := by
  unfold Page.destroyExisting
  cases hh : pg.existingGridEffect with
  | none =>
    simp only
    refine ⟨?_, ?_, ?_, trivial, trivial, ?_⟩
    · apply List.eq_nil_iff_forall_not_mem.mpr
      intro f hf
      have := (h.frames_live f hf).1
      rw [hh] at this
      cases this
    · apply List.eq_nil_iff_forall_not_mem.mpr
      intro l hl
      have := h.listeners_live l hl
      rw [hh] at this
      cases this
    · intro e he hid
      obtain ⟨r, inst, h1, -, -⟩ := h.canvas_live e he hid
      rw [hh] at h1
      cases h1
    · intro first inst0 h1
      cases h1
  | some old =>
    simp only
    obtain ⟨inst, hg⟩ := get?_of_lt pg.objects old (h.handle_lt old hh)
    rw [Page.destroy_eq pg old inst hg]
    simp only
    refine ⟨?_, ?_, ?_, List.length_set _ _ _, ?_⟩
    · apply List.eq_nil_iff_forall_not_mem.mpr
      intro f hf
      obtain ⟨hf1, hf2⟩ := mem_framesAfterCancel _ _ f hf
      obtain ⟨h1, h2, inst1, h3, h4⟩ := h.frames_live f hf1
      rw [hh, Option.some.injEq] at h1
      rw [← h1, hg, Option.some.injEq] at h3
      subst h3
      exact h2 (hf2 h4)
    · apply List.eq_nil_iff_forall_not_mem.mpr
      intro l hl
      obtain ⟨hl1, hl2⟩ := List.mem_filter.mp hl
      obtain ⟨hl3, hl4⟩ := List.mem_filter.mp hl1
      have ho := h.listeners_live l hl3
      rw [hh, Option.some.injEq] at ho
      simp only [ne_eq, decide_eq_true_eq] at hl2 hl4
      cases l with
      | resizeHandler o =>
        simp only [Handler.owner] at ho
        subst ho
        exact hl4 rfl
      | mouseMoveHandler o =>
        simp only [Handler.owner] at ho
        subst ho
        exact hl2 rfl
    · intro e he hid
      obtain ⟨he1, he2⟩ := List.mem_filter.mp he
      simp only [ne_eq, decide_eq_true_eq] at he2
      obtain ⟨r, inst1, h1, h2, h3⟩ := h.canvas_live e he1 hid
      rw [hh, Option.some.injEq] at h1
      rw [← h1, hg, Option.some.injEq] at h2
      subst h2
      exact he2 h3.symm
    · refine ⟨trivial, ?_⟩
      intro first inst0 h1 h2
      rw [Option.some.injEq] at h1
      subst h1
      rw [hg, Option.some.injEq] at h2
      subst h2
      exact get?_set_self_of_get? _ _ _ _ hg

theorem Page.construct_eq (pg : Page) (h : PageInv pg) (canvas : Nat) (options : Options)
    (w : Window) (nowColor nowReset frameReset frameColor : Int) :
    pg.construct canvas options w nowColor nowReset frameReset frameColor =
      match resize (measureNav (fields options nowColor nowReset) w) w with
      | none => none
      | some s1 =>
        match (animate s1 frameReset frameColor).2 with
        | none =>
          some { existingGridEffect := some pg.objects.length,
                 listeners := [.resizeHandler pg.objects.length,
                   .mouseMoveHandler pg.objects.length],
                 frames := [],
                 lastHandle := pg.lastHandle,
                 document := { ref := canvas, id := "grid-canvas" } ::
                   pg.destroyExisting.document.filter (fun e => decide (e.ref ≠ canvas)),
                 objects := pg.destroyExisting.objects ++
                   [{ canvas := canvas,
                      fields := tick s1 frameReset frameColor (pg.lastHandle + 1) }] }
        | some _ =>
          some { existingGridEffect := some pg.objects.length,
                 listeners := [.resizeHandler pg.objects.length,
                   .mouseMoveHandler pg.objects.length],
                 frames := [{ handle := pg.lastHandle + 1, owner := pg.objects.length }],
                 lastHandle := pg.lastHandle + 1,
                 document := { ref := canvas, id := "grid-canvas" } ::
                   pg.destroyExisting.document.filter (fun e => decide (e.ref ≠ canvas)),
                 objects := pg.destroyExisting.objects ++
                   [{ canvas := canvas,
                      fields := tick s1 frameReset frameColor (pg.lastHandle + 1) }] } := by
  obtain ⟨hf, hl, hd, hn, hh, -⟩ := Page.destroyExisting_released pg h
  have hfind : pg.destroyExisting.document.find? (fun e => decide (e.id = "grid-canvas")) =
      none := by
    rw [List.find?_eq_none]
    intro e he
    simpa using hd e he
  unfold Page.construct
  cases resize (measureNav (fields options nowColor nowReset) w) w with
  | none => rfl
  | some s1 =>
    cases ha : (animate s1 frameReset frameColor).2 with
    | none =>
      simp only [hfind, Page.addEventListener, Page.removeNode, hl, hf, hn, hh, ha]
      simp
    | some fills =>
      simp only [hfind, Page.addEventListener, Page.requestAnimationFrame, Page.removeNode,
        hl, hf, hn, hh, ha]
      simp

theorem construct_eq_none_iff (options : Options) (w : Window) (nowColor nowReset : Int)
    (frameReset frameColor : Int) (handle : Nat) :
    construct options w nowColor nowReset frameReset frameColor handle = none ↔
      loopsForever (orNumber options.spacing 10) (canvasDimension w.innerHeight 150) := by
  have h := onResize_eq_none_iff (fields options nowColor nowReset) w
  have e : (fields options nowColor nowReset).spacing = orNumber options.spacing 10 := rfl
  rw [e] at h
  rw [← h]
  unfold construct init onResize
  cases resize (measureNav (fields options nowColor nowReset) w) w <;> simp

theorem resize_fields_eq_none_iff (options : Options) (w : Window)
    (nowColor nowReset : Int) :
    resize (measureNav (fields options nowColor nowReset) w) w = none ↔
      loopsForever (orNumber options.spacing 10) (canvasDimension w.innerHeight 150) :=
  onResize_eq_none_iff (fields options nowColor nowReset) w

theorem tick_animationId_of_returns (s : GridEffect) (nowReset nowColor : Int)
    (handle : Nat) (h : (animate s nowReset nowColor).2 ≠ none) :
    (tick s nowReset nowColor handle).animationId = some handle := by
  rw [tick_of_returns s nowReset nowColor handle h]

theorem tick_animationId_of_throws (s : GridEffect) (nowReset nowColor : Int)
    (handle : Nat) (h : (animate s nowReset nowColor).2 = none) :
    (tick s nowReset nowColor handle).animationId = s.animationId := by
  rw [tick_of_throws s nowReset nowColor handle h]
  exact (animate_radius_points s nowReset nowColor).2.2.2

theorem tick_radius (s : GridEffect) (nowReset nowColor : Int) (handle : Nat) :
    (tick s nowReset nowColor handle).radius = s.radius := by
  rw [tick_eq]
  exact (animate_radius_points s nowReset nowColor).1

theorem resize_fields (options : Options) (w : Window) (nowColor nowReset : Int)
    (s1 : GridEffect)
    (hr : resize (measureNav (fields options nowColor nowReset) w) w = some s1) :
    s1.radius = orNumber options.pointSize 1 ∧ s1.animationId = none := by
  have h1 := resize_others _ s1 w hr
  have h2 := measureNav_others (fields options nowColor nowReset) w
  rw [h2] at h1
  rw [h1]
  exact ⟨rfl, rfl⟩

theorem Page.construct_of_returns (pg : Page) (h : PageInv pg) (canvas : Nat)
    (options : Options) (w : Window) (nowColor nowReset frameReset frameColor : Int)
    (s1 : GridEffect)
    (hr : resize (measureNav (fields options nowColor nowReset) w) w = some s1)
    (ha : (animate s1 frameReset frameColor).2 ≠ none) :
    pg.construct canvas options w nowColor nowReset frameReset frameColor =
      some { existingGridEffect := some pg.objects.length,
             listeners := [.resizeHandler pg.objects.length,
               .mouseMoveHandler pg.objects.length],
             frames := [{ handle := pg.lastHandle + 1, owner := pg.objects.length }],
             lastHandle := pg.lastHandle + 1,
             document := { ref := canvas, id := "grid-canvas" } ::
               pg.destroyExisting.document.filter (fun e => decide (e.ref ≠ canvas)),
             objects := pg.destroyExisting.objects ++
               [{ canvas := canvas,
                  fields := tick s1 frameReset frameColor (pg.lastHandle + 1) }] } := by
  rw [Page.construct_eq pg h]
  simp only [hr]
  cases hs : (animate s1 frameReset frameColor).2 with
  | none => exact absurd hs ha
  | some fills => rfl

theorem Page.construct_of_throws (pg : Page) (h : PageInv pg) (canvas : Nat)
    (options : Options) (w : Window) (nowColor nowReset frameReset frameColor : Int)
    (s1 : GridEffect)
    (hr : resize (measureNav (fields options nowColor nowReset) w) w = some s1)
    (ha : (animate s1 frameReset frameColor).2 = none) :
    pg.construct canvas options w nowColor nowReset frameReset frameColor =
      some { existingGridEffect := some pg.objects.length,
             listeners := [.resizeHandler pg.objects.length,
               .mouseMoveHandler pg.objects.length],
             frames := [],
             lastHandle := pg.lastHandle,
             document := { ref := canvas, id := "grid-canvas" } ::
               pg.destroyExisting.document.filter (fun e => decide (e.ref ≠ canvas)),
             objects := pg.destroyExisting.objects ++
               [{ canvas := canvas,
                  fields := tick s1 frameReset frameColor (pg.lastHandle + 1) }] } := by
  rw [Page.construct_eq pg h]
  simp only [hr, ha]

theorem pageInv_of_new (pg : Page) (h : PageInv pg) (canvas : Nat) (s : GridEffect)
    (frames : List FrameRequest) (lastHandle : Nat)
    (hf : ∀ f ∈ frames, f.owner = pg.objects.length ∧ f.handle ≠ 0 ∧
      s.animationId = some f.handle) :
    PageInv
      { existingGridEffect := some pg.objects.length,
        listeners := [.resizeHandler pg.objects.length,
          .mouseMoveHandler pg.objects.length],
        frames := frames,
        lastHandle := lastHandle,
        document := { ref := canvas, id := "grid-canvas" } ::
          pg.destroyExisting.document.filter (fun e => decide (e.ref ≠ canvas)),
        objects := pg.destroyExisting.objects ++ [{ canvas := canvas, fields := s }] } := by
  obtain ⟨-, -, hd, hn, -, -⟩ := Page.destroyExisting_released pg h
  have hget : (pg.destroyExisting.objects ++ [(⟨canvas, s⟩ : Instance)]).get?
      pg.objects.length = some (⟨canvas, s⟩ : Instance) := by
    rw [← hn, List.get?_eq_getElem?]
    exact List.getElem?_concat_length _ _
  refine ⟨?_, ?_, ?_, ?_⟩
  · intro r hr
    simp only [Option.some.injEq] at hr
    subst hr
    simp only [List.length_append, List.length_singleton, hn]
    omega
  · intro f hfm
    obtain ⟨h1, h2, h3⟩ := hf f hfm
    refine ⟨by rw [h1], h2, ⟨canvas, s⟩, ?_, h3⟩
    rw [h1]
    exact hget
  · intro l hl
    simp only [List.mem_cons, List.mem_singleton, List.not_mem_nil, or_false] at hl
    rcases hl with rfl | rfl <;> rfl
  · intro e he hid
    simp only [List.mem_cons, List.mem_filter] at he
    rcases he with rfl | ⟨he1, -⟩
    · exact ⟨_, _, rfl, hget, rfl⟩
    · exact absurd hid (hd e he1)

theorem PageInv.construct (pg pg1 : Page) (h : PageInv pg) (canvas : Nat)
    (options : Options) (w : Window) (nowColor nowReset frameReset frameColor : Int)
    (hc : pg.construct canvas options w nowColor nowReset frameReset frameColor = some pg1) :
    PageInv pg1 := by
  rw [Page.construct_eq pg h] at hc
  cases hr : resize (measureNav (fields options nowColor nowReset) w) w with
  | none => rw [hr] at hc; cases hc
  | some s1 =>
    rw [hr] at hc
    cases ha : (animate s1 frameReset frameColor).2 with
    | none =>
      simp only [ha, Option.some.injEq] at hc
      subst hc
      apply pageInv_of_new pg h
      intro f hf
      cases hf
    | some fills =>
      simp only [ha, Option.some.injEq] at hc
      subst hc
      apply pageInv_of_new pg h
      intro f hf
      simp only [List.mem_singleton] at hf
      subst hf
      refine ⟨rfl, Nat.succ_ne_zero _, ?_⟩
      exact tick_animationId_of_returns s1 _ _ _ (by rw [ha]; exact fun e => by cases e)

theorem PageInv.runFrame (pg : Page) (h : PageInv pg) (handle : Nat)
    (nowReset nowColor : Int) : PageInv (pg.runFrame handle nowReset nowColor) := by
  unfold Page.runFrame
  cases hfind : pg.frames.find? (fun f => decide (f.handle = handle)) with
  | none => exact h
  | some f =>
    have hfm : f ∈ pg.frames := List.mem_of_find?_eq_some hfind
    have hfh : f.handle = handle := by simpa using List.find?_some hfind
    obtain ⟨h1, h2, inst, h3, h4⟩ := h.frames_live f hfm
    have hnone : pg.frames.filter (fun g => decide (g.handle ≠ handle)) = [] := by
      apply List.eq_nil_iff_forall_not_mem.mpr
      intro g hg
      obtain ⟨hg1, hg2⟩ := List.mem_filter.mp hg
      simp only [ne_eq, decide_eq_true_eq] at hg2
      obtain ⟨k1, -, inst2, k3, k4⟩ := h.frames_live g hg1
      rw [h1, Option.some.injEq] at k1
      rw [← k1, h3, Option.some.injEq] at k3
      subst k3
      rw [h4, Option.some.injEq] at k4
      exact hg2 (k4.symm.trans hfh)
    have hcanvas : ∀ (objs : List Instance) (fields1 : GridEffect),
        objs = pg.objects.set f.owner { inst with fields := fields1 } →
        ∀ e ∈ pg.document, e.id = "grid-canvas" →
        ∃ r inst2, pg.existingGridEffect = some r ∧ objs.get? r = some inst2 ∧
          inst2.canvas = e.ref := by
      intro objs fields1 ho e he hid
      subst ho
      obtain ⟨r, inst2, k1, k2, k3⟩ := h.canvas_live e he hid
      by_cases hr : f.owner = r
      · subst hr
        rw [h3, Option.some.injEq] at k2
        subst k2
        exact ⟨_, _, k1, get?_set_self_of_get? _ _ _ _ h3, k3⟩
      · exact ⟨r, inst2, k1, (get?_set_of_ne _ _ _ _ hr).trans k2, k3⟩
    cases ha : (animate inst.fields nowReset nowColor).2 with
    | none =>
      simp only [Page.cancelAnimationFrame, hnone, h3, ha]
      refine ⟨?_, ?_, h.listeners_live, hcanvas _ _ rfl⟩
      · intro r hr
        simp only [List.length_set]
        exact h.handle_lt r hr
      · intro g hg
        cases hg
    | some fills =>
      simp only [Page.cancelAnimationFrame, hnone, h3, ha, Page.requestAnimationFrame,
        List.nil_append]
      refine ⟨?_, ?_, h.listeners_live, hcanvas _ _ rfl⟩
      · intro r hr
        simp only [List.length_set]
        exact h.handle_lt r hr
      · intro g hg
        simp only [List.mem_singleton] at hg
        subst hg
        refine ⟨h1, Nat.succ_ne_zero _, _, get?_set_self_of_get? _ _ _ _ h3, ?_⟩
        exact tick_animationId_of_returns inst.fields _ _ _
          (by rw [ha]; exact fun e => by cases e)

theorem PageInv.blank (document : List Element) (lastHandle : Nat)
    (hd : ∀ e ∈ document, e.id ≠ "grid-canvas") : PageInv (Page.blank document lastHandle) := by
  refine ⟨?_, ?_, ?_, ?_⟩
  · intro r hr; cases hr
  · intro f hf; cases hf
  · intro l hl; cases hl
  · intro e he hid
    exact absurd hid (hd e he)

theorem PageInv.step (pg pg1 : Page) (e : PageEvent) (h : PageInv pg)
    (hs : pg.step e = some pg1) : PageInv pg1 := by
  cases e with
  | construct canvas options w nowColor nowReset frameReset frameColor =>
    exact PageInv.construct pg pg1 h canvas options w nowColor nowReset frameReset
      frameColor hs
  | frame handle nowReset nowColor =>
    simp only [Page.step, Option.some.injEq] at hs
    subst hs
    exact PageInv.runFrame pg h handle nowReset nowColor
  | resize w =>
    cases hd : Page.dispatchResize w pg.listeners pg.objects with
    | none =>
      have : pg.step (.resize w) = none := by simp only [Page.step, hd]
      rw [this] at hs
      cases hs
    | some objs =>
      simp only [Page.step, hd, Option.some.injEq] at hs
      subst hs
      exact PageInv.shrink pg _ h rfl (fun _ hf => hf) (fun _ hl => hl) (fun _ he => he)
        (dispatchResize_sameIdentity w _ _ _ hd)
  | mouseMove x y =>
    simp only [Page.step, Option.some.injEq] at hs
    subst hs
    exact PageInv.shrink pg _ h rfl (fun _ hf => hf) (fun _ hl => hl) (fun _ he => he)
      (dispatchMouseMove_sameIdentity x y _ _)
  | setInteractive self b =>
    cases hg : pg.objects.get? self with
    | none =>
      simp only [Page.step, hg, Option.some.injEq] at hs
      subst hs
      exact h
    | some inst =>
      simp only [Page.step, hg, Option.some.injEq] at hs
      subst hs
      exact PageInv.shrink pg _ h rfl (fun _ hf => hf) (fun _ hl => hl) (fun _ he => he)
        (SameIdentity.set pg.objects self inst
          { inst with fields := inst.fields.setInteractive b } hg rfl
          (by cases b <;> rfl))
  | destroy self =>
    simp only [Page.step, Option.some.injEq] at hs
    subst hs
    exact PageInv.destroy pg self h

theorem pageReachable_inv (pg : Page) (h : PageReachable pg) : PageInv pg := by
  induction h with
  | blank document lastHandle hd => exact PageInv.blank document lastHandle hd
  | step pg pg1 e _ hs ih => exact PageInv.step pg pg1 e ih hs

/-! ## A concrete page -/

theorem construct_demoPage :
    demoBlank.step (.construct 1 shippedOptions demoWindow 0 0 16 16) = some demoPage := by
  have hinv : PageInv demoBlank := PageInv.blank _ _ (by decide)
  have hsp : orNumber shippedOptions.spacing 10 = ((15 : Int) : ℚ) := by
    simp [shippedOptions, orNumber]
  have hr := resize_on_demoWindow shippedOptions 0 0 hsp
  have ha : (animate { measureNav (fields shippedOptions 0 0) demoWindow with
      canvasWidth := 100, canvasHeight := 100,
      points := lattice 7 7 15 30, activatedPoints := [] } 16 16).2 ≠ none := by
    rw [Ne, animate_throws_iff]
    rintro ⟨hneg, -⟩
    have hrad : (0 : ℚ) ≤ orNumber shippedOptions.pointSize 1 := by
      simp [shippedOptions, orNumber]
    exact absurd hneg (not_lt.mpr hrad)
  show demoBlank.construct 1 shippedOptions demoWindow 0 0 16 16 = some demoPage
  rw [Page.construct_of_returns demoBlank hinv 1 shippedOptions demoWindow 0 0 16 16 _ hr ha]
  rfl

theorem reachable_demoPage : PageReachable demoPage :=
  PageReachable.step demoBlank demoPage _ (PageReachable.blank _ _ (by decide))
    construct_demoPage

theorem shipped_not_loopsForever (H : Nat) :
    ¬ loopsForever (orNumber shippedOptions.spacing 10) H :=
  demoState_not_loopsForever H

/-! ## Idempotent teardown -/

theorem filter_again {α : Type} (p : α → Bool) (l : List α) :
    (l.filter p).filter p = l.filter p := by
  rw [List.filter_eq_self]
  intro a ha
  exact (List.mem_filter.mp ha).2

theorem filter_twice_again {α : Type} (p q : α → Bool) (l : List α) :
    (((l.filter p).filter q).filter p).filter q = (l.filter p).filter q := by
  have h : ((l.filter p).filter q).filter p = (l.filter p).filter q := by
    rw [List.filter_eq_self]
    intro a ha
    exact (List.mem_filter.mp (List.mem_filter.mp ha).1).2
  rw [h, filter_again]

theorem Page.destroy_destroy (pg : Page) (self : Nat) :
    (pg.destroy self).destroy self = pg.destroy self := by
  cases hg : pg.objects.get? self with
  | none => rw [Page.destroy_of_none pg self hg, Page.destroy_of_none pg self hg]
  | some inst =>
    rw [Page.destroy_eq pg self inst hg]
    have hg2 : (pg.objects.set self { inst with fields := inst.fields.destroy }).get? self =
        some { inst with fields := inst.fields.destroy } :=
      get?_set_self_of_get? _ _ _ _ hg
    rw [Page.destroy_eq _ self { inst with fields := inst.fields.destroy } hg2]
    have e1 : inst.fields.destroy.animationId = inst.fields.animationId := rfl
    have e2 : inst.fields.destroy.destroy = inst.fields.destroy := rfl
    simp only [e1, e2, framesAfterCancel_idem, List.set_set, filter_again, filter_twice_again]

/-- C13 (idempotent teardown).  For every page and every object, calling
`destroy` a second time changes nothing, on the page and on the instance
fields.  After the first call the object's two listeners are not registered,
its canvas is not in the document (so the guarded `removeChild` of the second
call is skipped), no pending frame request carries the handle stored in
`animationId`, and its point list and ActivatedSet are empty.  On every page
that can arise, no pending frame request belongs to the object after
`destroy`. -/
theorem destroy_idempotent (pg : Page) (self : Nat) :
    (pg.destroy self).destroy self = pg.destroy self ∧
    (∀ s : GridEffect, s.destroy.destroy = s.destroy) ∧
    (∀ inst, pg.objects.get? self = some inst →
      Handler.resizeHandler self ∉ (pg.destroy self).listeners ∧
      Handler.mouseMoveHandler self ∉ (pg.destroy self).listeners ∧
      inst.canvas ∉ (pg.destroy self).document.map Element.ref ∧
      (∀ f ∈ (pg.destroy self).frames,
        inst.fields.animationId = some f.handle → f.handle = 0) ∧
      (pg.destroy self).objects.get? self =
        some { inst with fields := inst.fields.destroy } ∧
      inst.fields.destroy.points = [] ∧ inst.fields.destroy.activatedPoints = []) ∧
    (PageReachable pg → ∀ f ∈ (pg.destroy self).frames, f.owner ≠ self) := by
  refine ⟨Page.destroy_destroy pg self, fun _ => rfl, ?_, ?_⟩
  · intro inst hg
    rw [Page.destroy_eq pg self inst hg]
    refine ⟨?_, ?_, ?_, ?_, get?_set_self_of_get? _ _ _ _ hg, rfl, rfl⟩
    · intro hm
      have := (List.mem_filter.mp (List.mem_filter.mp hm).1).2
      simp at this
    · intro hm
      have := (List.mem_filter.mp hm).2
      simp at this
    · intro hm
      obtain ⟨e, he, hr⟩ := List.mem_map.mp hm
      have := (List.mem_filter.mp he).2
      simp only [ne_eq, decide_eq_true_eq] at this
      exact this hr
    · intro f hf
      exact (mem_framesAfterCancel _ _ f hf).2
  · intro hr f hf hown
    have hinv := pageReachable_inv pg hr
    cases hg : pg.objects.get? self with
    | none =>
      rw [Page.destroy_of_none pg self hg] at hf
      obtain ⟨-, -, inst, h3, -⟩ := hinv.frames_live f hf
      rw [hown, hg] at h3
      cases h3
    | some inst =>
      rw [Page.destroy_eq pg self inst hg] at hf
      obtain ⟨hf1, hf2⟩ := mem_framesAfterCancel _ _ f hf
      obtain ⟨-, h2, inst1, h3, h4⟩ := hinv.frames_live f hf1
      rw [hown, hg, Option.some.injEq] at h3
      subst h3
      exact h2 (hf2 h4)

/-- C13, at a concrete input: the page `demoPage`, which can arise, and its live
object 0. -/
theorem destroy_idempotent_witness :
    PageReachable demoPage ∧
    demoPage.objects.get? 0 = some { canvas := 1, fields := demoState } ∧
    (demoPage.destroy 0).destroy 0 = demoPage.destroy 0 ∧
    (Handler.resizeHandler 0 ∉ (demoPage.destroy 0).listeners ∧
      Handler.mouseMoveHandler 0 ∉ (demoPage.destroy 0).listeners ∧
      (1 : Nat) ∉ (demoPage.destroy 0).document.map Element.ref ∧
      (∀ f ∈ (demoPage.destroy 0).frames,
        demoState.animationId = some f.handle → f.handle = 0) ∧
      (demoPage.destroy 0).objects.get? 0 =
        some { canvas := 1, fields := demoState.destroy } ∧
      demoState.destroy.points = [] ∧ demoState.destroy.activatedPoints = []) ∧
    (∀ f ∈ (demoPage.destroy 0).frames, f.owner ≠ 0) :=
  ⟨reachable_demoPage, rfl, (destroy_idempotent demoPage 0).1,
    (destroy_idempotent demoPage 0).2.2.1 _ rfl,
    (destroy_idempotent demoPage 0).2.2.2 reachable_demoPage⟩

/-! ## Singleton replacement -/

/-- C14, refuted as stated: on `demoPage`, where object 0 is live, the shipped
call is made again with `pointSize: -1` and a new canvas, numbered 2.  The
first frame of the new object throws at `ctx.arc`, before
`requestAnimationFrame`: afterwards the handle refers to the new object and
its two listeners are registered, but no frame callback is scheduled and its
`animationId` is `null`. -/
theorem first_frame_throws_counterexample :
    PageReachable demoPage ∧
    demoPage.existingGridEffect = some 0 ∧
    ¬ loopsForever (orNumber negativeOptions.spacing 10)
      (canvasDimension demoWindow.innerHeight 150) ∧
    ∃ pg1, demoPage.construct 2 negativeOptions demoWindow 100 100 116 116 = some pg1 ∧
      pg1.existingGridEffect = some 1 ∧
      pg1.listeners = [.resizeHandler 1, .mouseMoveHandler 1] ∧
      pg1.frames = [] ∧
      ∃ inst, pg1.objects.get? 1 = some inst ∧ inst.canvas = 2 ∧
        inst.fields.radius = -1 ∧ inst.fields.points.length = 35 ∧
        inst.fields.animationId = none := by
  have hinv : PageInv demoPage := pageReachable_inv demoPage reachable_demoPage
  have hr := resize_on_demoWindow negativeOptions 100 100 negativeOptions_spacing
  have hrad : orNumber negativeOptions.pointSize 1 = -1 := by
    simp [negativeOptions, orNumber]
  have ha : (animate { measureNav (fields negativeOptions 100 100) demoWindow with
      canvasWidth := 100, canvasHeight := 100,
      points := lattice 7 7 15 30, activatedPoints := [] } 116 116).2 = none := by
    rw [animate_throws_iff]
    constructor
    · show orNumber negativeOptions.pointSize 1 < 0
      rw [hrad]
      norm_num
    · show lattice 7 7 15 30 ≠ []
      decide
  have hl : ¬ loopsForever (orNumber negativeOptions.spacing 10)
      (canvasDimension demoWindow.innerHeight 150) := by
    rintro ⟨h0, -, -⟩
    rw [negativeOptions_spacing, mathRound_intCast] at h0
    exact absurd h0 (by decide)
  refine ⟨reachable_demoPage, rfl, hl, _,
    Page.construct_of_throws demoPage hinv 2 negativeOptions demoWindow 100 100 116 116 _
      hr ha, rfl, rfl, rfl, _, rfl, rfl, ?_, ?_, ?_⟩
  · rw [tick_radius]
    exact hrad
  · rw [(tick_frame _ 116 116 _).1]
    decide
  · rw [tick_animationId_of_throws _ _ _ _ ha]
    rfl

/-- C14, amended (singleton replacement).  On every page that can arise,
constructing a `GridEffect` ends unless `createPoints` loops forever, and
afterwards the global handle refers to the new object, which differs from the
object it referred to before; the registered listeners are exactly the new
object's `resize` and `mousemove` handlers; every pending frame request is the
new object's; the only element with the id `grid-canvas` in the document is
the new object's canvas, placed first; and the object the handle referred to
before has an empty point list and an empty ActivatedSet.  The new object's
radius is `options.pointSize || 1`.  When that radius is not negative, or the
new field is empty, exactly one frame request is pending, with the handle
stored in the new object's `animationId`.  When the radius is negative and the
field is not empty, the first frame throws: no frame request is pending and
`animationId` is `null`. -/
theorem construct_replaces (pg : Page) (h : PageReachable pg) (canvas : Nat)
    (options : Options) (w : Window) (nowColor nowReset frameReset frameColor : Int)
    (hl : ¬ loopsForever (orNumber options.spacing 10)
      (canvasDimension w.innerHeight 150)) :
    ∃ pg1, pg.construct canvas options w nowColor nowReset frameReset frameColor = some pg1 ∧
      pg1.existingGridEffect = some pg.objects.length ∧
      (∀ first, pg.existingGridEffect = some first → first ≠ pg.objects.length) ∧
      pg1.listeners = [.resizeHandler pg.objects.length,
        .mouseMoveHandler pg.objects.length] ∧
      (∀ f ∈ pg1.frames, f.owner = pg.objects.length) ∧
      pg1.document.filter (fun e => decide (e.id = "grid-canvas")) =
        [{ ref := canvas, id := "grid-canvas" }] ∧
      pg1.document.head? = some { ref := canvas, id := "grid-canvas" } ∧
      (∃ inst, pg1.objects.get? pg.objects.length = some inst ∧ inst.canvas = canvas ∧
        inst.fields.radius = orNumber options.pointSize 1 ∧
        (0 ≤ orNumber options.pointSize 1 ∨ inst.fields.points = [] →
          pg1.frames = [{ handle := pg.lastHandle + 1, owner := pg.objects.length }] ∧
          inst.fields.animationId = some (pg.lastHandle + 1)) ∧
        (orNumber options.pointSize 1 < 0 → inst.fields.points ≠ [] →
          pg1.frames = [] ∧ inst.fields.animationId = none)) ∧
      (∀ first inst0, pg.existingGridEffect = some first →
        pg.objects.get? first = some inst0 →
        pg1.objects.get? first = some { inst0 with fields := inst0.fields.destroy } ∧
        inst0.fields.destroy.points = [] ∧ inst0.fields.destroy.activatedPoints = []) := by
  have hinv := pageReachable_inv pg h
  obtain ⟨-, -, hd, hn, -, hfirst⟩ := Page.destroyExisting_released pg hinv
  cases hr : resize (measureNav (fields options nowColor nowReset) w) w with
  | none => exact absurd ((resize_fields_eq_none_iff _ _ _ _).mp hr) hl
  | some s1 =>
    obtain ⟨hrad, hid⟩ := resize_fields options w nowColor nowReset s1 hr
    have hget : ∀ s : GridEffect,
        (pg.destroyExisting.objects ++ [(⟨canvas, s⟩ : Instance)]).get?
          pg.objects.length = some (⟨canvas, s⟩ : Instance) := by
      intro s
      rw [← hn, List.get?_eq_getElem?]
      exact List.getElem?_concat_length _ _
    have hne : ∀ first, pg.existingGridEffect = some first → first ≠ pg.objects.length :=
      fun first hf => Nat.ne_of_lt (hinv.handle_lt first hf)
    have hdoc : (({ ref := canvas, id := "grid-canvas" } : Element) ::
        pg.destroyExisting.document.filter (fun e => decide (e.ref ≠ canvas))).filter
          (fun e => decide (e.id = "grid-canvas")) =
        [{ ref := canvas, id := "grid-canvas" }] := by
      simp only [List.filter_cons, decide_True, if_true, List.cons.injEq, true_and]
      apply List.eq_nil_iff_forall_not_mem.mpr
      intro e he
      obtain ⟨he1, he2⟩ := List.mem_filter.mp he
      simp only [decide_eq_true_eq] at he2
      exact hd e (List.mem_filter.mp he1).1 he2
    have hold : ∀ (s : GridEffect) (first : Nat) (inst0 : Instance),
        pg.existingGridEffect = some first → pg.objects.get? first = some inst0 →
        (pg.destroyExisting.objects ++ [(⟨canvas, s⟩ : Instance)]).get? first =
          some { inst0 with fields := inst0.fields.destroy } ∧
        inst0.fields.destroy.points = [] ∧ inst0.fields.destroy.activatedPoints = [] := by
      intro s first inst0 hf hg
      refine ⟨?_, rfl, rfl⟩
      have hlt : first < pg.destroyExisting.objects.length := by
        rw [hn]; exact hinv.handle_lt first hf
      have := hfirst first inst0 hf hg
      rw [List.get?_eq_getElem?] at this ⊢
      rw [List.getElem?_append_left hlt]
      exact this
    have hpts : (tick s1 frameReset frameColor (pg.lastHandle + 1)).points = s1.points :=
      (tick_frame s1 frameReset frameColor _).1
    by_cases ha : (animate s1 frameReset frameColor).2 = none
    · have hc := Page.construct_of_throws pg hinv canvas options w nowColor nowReset
        frameReset frameColor s1 hr ha
      obtain ⟨hneg, hnil⟩ := (animate_throws_iff _ _ _).mp ha
      rw [hrad] at hneg
      refine ⟨_, hc, rfl, hne, rfl, ?_, hdoc, rfl,
        ⟨⟨canvas, tick s1 frameReset frameColor (pg.lastHandle + 1)⟩, hget _, rfl, ?_, ?_,
          ?_⟩, hold _⟩
      · intro f hf
        cases hf
      · rw [tick_radius]
        exact hrad
      · rintro (h0 | h0)
        · exact absurd hneg (not_lt.mpr h0)
        · exact absurd (hpts.symm.trans h0) hnil
      · intro _ _
        refine ⟨rfl, ?_⟩
        rw [tick_animationId_of_throws _ _ _ _ ha]
        exact hid
    · have hc := Page.construct_of_returns pg hinv canvas options w nowColor nowReset
        frameReset frameColor s1 hr ha
      have hret : ¬ (s1.radius < 0 ∧ s1.points ≠ []) :=
        fun hh => ha ((animate_throws_iff _ _ _).mpr hh)
      rw [hrad] at hret
      refine ⟨_, hc, rfl, hne, rfl, ?_, hdoc, rfl,
        ⟨⟨canvas, tick s1 frameReset frameColor (pg.lastHandle + 1)⟩, hget _, rfl, ?_, ?_,
          ?_⟩, hold _⟩
      · intro f hf
        simp only [List.mem_singleton] at hf
        rw [hf]
      · rw [tick_radius]
        exact hrad
      · intro _
        exact ⟨rfl, tick_animationId_of_returns _ _ _ _ ha⟩
      · intro h0 h1
        exact absurd ⟨h0, fun e => h1 (hpts.trans e)⟩ hret

/-- C14, at a concrete input: on `demoPage`, where object 0 is live with its two
listeners, one pending frame and its canvas 1 in the document, the shipped call
is made again with a new canvas, numbered 2. -/
theorem construct_replaces_witness :
    PageReachable demoPage ∧
    ¬ loopsForever (orNumber shippedOptions.spacing 10)
      (canvasDimension demoWindow.innerHeight 150) ∧
    demoPage.existingGridEffect = some 0 ∧
    demoPage.listeners = [.resizeHandler 0, .mouseMoveHandler 0] ∧
    demoPage.frames = [{ handle := 1, owner := 0 }] ∧
    ∃ pg1, demoPage.construct 2 shippedOptions demoWindow 100 100 116 116 = some pg1 ∧
      pg1.existingGridEffect = some 1 ∧
      (∀ first, demoPage.existingGridEffect = some first → first ≠ 1) ∧
      pg1.listeners = [.resizeHandler 1, .mouseMoveHandler 1] ∧
      (∀ f ∈ pg1.frames, f.owner = 1) ∧
      pg1.document.filter (fun e => decide (e.id = "grid-canvas")) =
        [{ ref := 2, id := "grid-canvas" }] ∧
      pg1.document.head? = some { ref := 2, id := "grid-canvas" } ∧
      (∃ inst, pg1.objects.get? 1 = some inst ∧ inst.canvas = 2 ∧
        inst.fields.radius = orNumber shippedOptions.pointSize 1 ∧
        (0 ≤ orNumber shippedOptions.pointSize 1 ∨ inst.fields.points = [] →
          pg1.frames = [{ handle := 2, owner := 1 }] ∧
          inst.fields.animationId = some 2) ∧
        (orNumber shippedOptions.pointSize 1 < 0 → inst.fields.points ≠ [] →
          pg1.frames = [] ∧ inst.fields.animationId = none)) ∧
      (∀ first inst0, demoPage.existingGridEffect = some first →
        demoPage.objects.get? first = some inst0 →
        pg1.objects.get? first = some { inst0 with fields := inst0.fields.destroy } ∧
        inst0.fields.destroy.points = [] ∧ inst0.fields.destroy.activatedPoints = []) :=
  ⟨reachable_demoPage, shipped_not_loopsForever _, rfl, rfl, rfl,
    construct_replaces demoPage reachable_demoPage 2 shippedOptions demoWindow 100 100 116
      116 (shipped_not_loopsForever _)⟩

end GridEffect
